import Mathlib

/-!
Formal model of the yousync comparison/scoring engine.

This file gives a shallow embedding, in Lean 4, of the scoring core of the
repository (pronunciation-api/text_similarity.py, pronunciation-api/mfcc_similarity.py,
pronunciation-api/pronunciation.py, user_processor/textgrid_comparator.py) and
proves or refutes the specification claims about it.

Modelling conventions:
- Python floats are modelled as exact rationals (`ℚ`) wherever the code only
  performs field operations, and as reals (`ℝ`) for the MFCC pipeline, whose
  standard deviations and Euclidean distances need square roots.
- NumPy arrays become lists; a feature matrix is a list of frames (rows),
  each frame a list of coefficients.
- Python code that can raise an uncaught exception on some input is embedded
  in `Except Unit`, with `.error ()` marking the raising runs.
- `round(x, 3)` is modelled as exact round-half-to-even on rationals.
- Character predicates (`\w`, `\s`, `str.lower`) are modelled with their ASCII
  semantics, which agree with Python on every input considered here.
-/

namespace YouSync

set_option maxHeartbeats 1000000
set_option maxRecDepth 100000

/-! ## Rational utilities -/

instance {ε α : Type} [DecidableEq ε] [DecidableEq α] : DecidableEq (Except ε α) :=
  fun a b =>
  match a, b with
  | .error e, .error f => decidable_of_iff (e = f) (by simp)
  | .error _, .ok _ => isFalse (fun h => Except.noConfusion h)
  | .ok _, .error _ => isFalse (fun h => Except.noConfusion h)
  | .ok x, .ok y => decidable_of_iff (x = y) (by simp)

/-- Round-half-to-even of a rational to an integer, the tie-breaking rule of
Python's built-in `round`. -/
def roundHalfEven (x : ℚ) : ℤ :=
  let f : ℤ := ⌊x⌋
  let r : ℚ := x - f
  if r < 1/2 then f
  else if 1/2 < r then f + 1
  else if Even f then f else f + 1

/-- Model of Python `round(x, 3)`. -/
def round3 (x : ℚ) : ℚ := (roundHalfEven (1000 * x) : ℚ) / 1000

/-! ## text_similarity.py : normalization and tokenization -/

/-- Character class of Python's regex `\w` (ASCII range): letters, digits and
underscore. -/
def isWordChar (c : Char) : Bool := c.isAlphanum || c = '_'

/-- Model of `normalize_and_tokenize` (text_similarity.py lines 9-15):
lowercase, unify the Unicode apostrophe with the ASCII one, drop every
character that is not a word character, whitespace or apostrophe, then split
on whitespace runs discarding empty pieces (the whitespace-collapse and strip
steps of the source only affect the intermediate string, not the final token
list, and are absorbed by the run-splitting). -/
def normalizeAndTokenize (text : String) : List String :=
  let t1 := text.toLower
  let t2 := t1.map (fun c => if c = '’' then '\'' else c)
  let t3 := String.mk (t2.data.filter (fun c => isWordChar c || c.isWhitespace || c = '\''))
  (t3.split (fun c => c.isWhitespace)).filter (fun s => s ≠ "")

/-- A word segment: a recognized or reference word with its time span and
confidence, the dictionaries `{'word', 'start_time', 'end_time', 'confidence'}`
flowing through text_similarity.py and pronunciation.py. -/
structure Seg where
  word : String
  startTime : ℚ
  endTime : ℚ
  conf : ℚ
  deriving DecidableEq, Repr

/-- Model of `normalize_segments_to_zero` (text_similarity.py lines 41-53):
shift every span by the first span's start time. -/
def normalizeSegmentsToZero (segments : List Seg) : List Seg :=
  match segments with
  | [] => segments
  | s0 :: _ =>
    segments.map (fun s =>
      { s with startTime := s.startTime - s0.startTime,
               endTime := s.endTime - s0.startTime })

/-- Model of `word_match_with_normalization` (text_similarity.py lines 55-64):
compare the first normalized tokens, defaulting to the empty string. -/
def wordMatchWithNormalization (refWord userWord : String) : Bool :=
  let refClean := (normalizeAndTokenize refWord).headD ""
  let userClean := (normalizeAndTokenize userWord).headD ""
  refClean = userClean

/-- Length of a longest common subsequence of two character lists, the value
computed by the dynamic program of `compute_char_lcs_ratio`
(text_similarity.py lines 148-164). -/
def lcsLen : List Char → List Char → ℕ
  | [], _ => 0
  | _ :: _, [] => 0
  | a :: as, b :: bs =>
    if a = b then lcsLen as bs + 1
    else max (lcsLen (a :: as) bs) (lcsLen as (b :: bs))
termination_by xs ys => xs.length + ys.length

/-- Model of `compute_char_lcs_ratio`: LCS length divided by the longer
length, 0 when both strings are empty. -/
def computeCharLcsRat (a b : String) : ℚ :=
  let m := a.length
  let n := b.length
  if max m n > 0 then (lcsLen a.data b.data : ℚ) / (max m n : ℚ) else 0

/-- Result row of `score_text_alignment`: the per-word status dictionary.
`conf = none` models the branch that emits no `"confidence"` key. -/
structure TextResult where
  word : String
  status : String
  lcsSimilarity : ℚ
  conf : Option ℚ
  deriving DecidableEq, Repr

/-- LCS similarity threshold `LCS_THRESH` (text_similarity.py line 67). -/
def lcsThresh : ℚ := 3/5

/-- Window tolerance `tol` of `score_text_alignment` (line 84). -/
def winTol : ℚ := 1/4

/-- Start-point tolerance `start_tol` of `score_text_alignment` (line 85). -/
def startTol : ℚ := 1/2

/-- Overlap between a candidate and a reference window, the `key` of the
`max(...)` call and the `overlap` of step 5 (lines 99-120). -/
def windowOverlap (windowStart windowEnd : ℚ) (user : Seg) : ℚ :=
  min windowEnd user.endTime - max windowStart user.startTime

/-- Python `max(candidates, key=...)`: first element attaining the maximal
key, folded left keeping the incumbent on ties. -/
def maxByKey (key : Seg → ℚ) (c : Seg) (cs : List Seg) : Seg :=
  cs.foldl (fun acc u => if key acc < key u then u else acc) c

/-- Model of the per-reference-word body of `score_text_alignment`
(text_similarity.py lines 87-140), applied to one normalized reference
segment and the normalized user segments. -/
def scoreOneRef (userNormalized : List Seg) (ref : Seg) : TextResult :=
  let windowStart := ref.startTime - winTol
  let windowEnd := ref.endTime + winTol
  let candidates := userNormalized.filter
    (fun u => ¬(u.endTime < windowStart ∨ u.startTime > windowEnd))
  match candidates with
  | [] => { word := ref.word, status := "fail", lcsSimilarity := 0, conf := some 0 }
  | c :: cs =>
    let best := maxByKey (windowOverlap windowStart windowEnd) c cs
    let lcsSim : ℚ :=
      if wordMatchWithNormalization ref.word best.word then 1
      else computeCharLcsRat ref.word best.word
    if lcsSim < lcsThresh then
      { word := ref.word, status := "fail", lcsSimilarity := lcsSim, conf := none }
    else
      let startOk := |best.startTime - ref.startTime| ≤ startTol
      let overlap := windowOverlap windowStart windowEnd best
      let refDur := ref.endTime - ref.startTime
      let ratOv : ℚ := if refDur ≠ 0 then overlap / refDur else 0
      { word := ref.word,
        status := if startOk ∧ ratOv ≥ 7/10 then "pass" else "fail",
        lcsSimilarity := lcsSim,
        conf := some best.conf }

/-- Model of `score_text_alignment` (text_similarity.py lines 69-141) applied
to already-parsed user segments: normalize both sequences to a zero origin,
then score each reference word. -/
def scoreTextAlignment (referenceSegments userSegments : List Seg) : List TextResult :=
  let userNormalized := normalizeSegmentsToZero userSegments
  let refNormalized := normalizeSegmentsToZero referenceSegments
  refNormalized.map (scoreOneRef userNormalized)

/-! ## pronunciation.py : time-overlap analysis -/

/-- Time-match record of `analyze_time_overlap` (pronunciation.py lines
444-496). `userStart = none` models the Python `None` marking a reference
word with no recognized counterpart. -/
structure TimeRec where
  word : String
  timeMatch : Bool
  overlapRat : ℚ
  refStart : ℚ
  refEnd : ℚ
  userStart : Option ℚ
  userEnd : Option ℚ
  deriving DecidableEq, Repr

/-- Model of `calculate_time_overlap` (pronunciation.py lines 147-159):
returns `(overlap_duration, overlap_ratio)`. -/
def calculateTimeOverlap (refStart refEnd userStart userEnd : ℚ) : ℚ × ℚ :=
  let overlapStart := max refStart userStart
  let overlapEnd := min refEnd userEnd
  if overlapStart ≥ overlapEnd then (0, 0)
  else
    let overlapDuration := overlapEnd - overlapStart
    let refDuration := refEnd - refStart
    (overlapDuration, if refDuration > 0 then overlapDuration / refDuration else 0)

/-- Time-overlap threshold of `analyze_time_overlap` (default argument 0.4). -/
def overlapThreshold : ℚ := 2/5

/-- First normalized token of a word, `normalize_and_tokenize(w)[0]`;
`none` when the token list is empty, in which case the Python indexing
raises `IndexError`. -/
def firstTok? (w : String) : Option String := (normalizeAndTokenize w).head?

/-- One insertion into a Python dict modelled as an association list: an
existing binding of the key is overwritten in place, a new key is appended. -/
def dictInsert (d : List (String × Seg)) (k : String) (v : Seg) : List (String × Seg) :=
  if d.any (fun p => p.1 = k) then d.map (fun p => if p.1 = k then (k, v) else p)
  else d ++ [(k, v)]

/-- The dict comprehension of `analyze_time_overlap` (pronunciation.py lines
452-454) applied to already-tokenized pairs: left-to-right insertion with
overwriting. -/
def buildUserDict (pairs : List (String × Seg)) : List (String × Seg) :=
  pairs.foldl (fun d p => dictInsert d p.1 p.2) []

/-- Lookup in the association-list dict (keys are unique by construction). -/
def dictFind? (d : List (String × Seg)) (k : String) : Option Seg :=
  (d.find? (fun p => p.1 = k)).map (fun p => p.2)

/-- Record produced by `analyze_time_overlap` for one reference word, from
the user match (if any) found in the dictionary. -/
def mkTimeRec (r : Seg) (userMatch : Option Seg) : TimeRec :=
  match userMatch with
  | some u =>
    let p := calculateTimeOverlap r.startTime r.endTime u.startTime u.endTime
    { word := r.word, timeMatch := decide (p.2 ≥ overlapThreshold),
      overlapRat := p.2, refStart := r.startTime, refEnd := r.endTime,
      userStart := some u.startTime, userEnd := some u.endTime }
  | none =>
    { word := r.word, timeMatch := false, overlapRat := 0,
      refStart := r.startTime, refEnd := r.endTime,
      userStart := none, userEnd := none }

/-- Model of `analyze_time_overlap` (pronunciation.py lines 444-496). The
unguarded `normalize_and_tokenize(...)[0]` indexings of lines 453 and 462
raise `IndexError` on a word whose normalization is empty; these runs are
modelled as `.error ()`. -/
def analyzeTimeOverlap (referenceWords userWordTimestamps : List Seg) :
    Except Unit (List TimeRec) :=
  Except.bind
    (userWordTimestamps.mapM (fun u =>
      match firstTok? u.word with
      | some k => Except.ok (k, u)
      | none => Except.error ()))
    (fun pairs =>
      referenceWords.mapM (fun r =>
        match firstTok? r.word with
        | some k => Except.ok (mkTimeRec r (dictFind? (buildUserDict pairs) k))
        | none => Except.error ()))

/-! ## pronunciation.py : comprehensive results -/

/-- Per-word entry of `compare_mfcc_segments`' result list: raw similarity
plus the calibrated score; `adjusted = none` models a dictionary without the
`"adjusted_score"` key. -/
structure MfccRec where
  word : String
  similarity : ℚ
  adjusted : Option ℚ
  deriving DecidableEq, Repr

/-- Per-word row of the final report's `word_analysis`. -/
structure WordAnalysis where
  word : String
  textStatus : String
  timeMatch : Bool
  overlapRat : ℚ
  mfccSimilarity : ℚ
  wordScore : ℚ
  deriving DecidableEq, Repr

/-- Final report of `generate_comprehensive_results`. -/
structure Report where
  overallScore : ℚ
  wordAnalysis : List WordAnalysis
  textAccuracy : ℚ
  timeAccuracy : ℚ
  mfccAverage : ℚ
  totalWords : ℕ
  passedWords : ℕ
  timeMatchedWords : ℕ
  sttFailures : List String
  timeFailures : List String
  mfccLowQuality : List String
  deriving DecidableEq, Repr

/-- Intermediate per-word data of the loop body of
`generate_comprehensive_results` (pronunciation.py lines 612-665), before
aggregation. The `Except` models the unguarded `text_comparison_result[i]`
indexing of line 631, which raises `IndexError` when the text-comparison
list is shorter than the reference word list. -/
def wordLoopStep (textRes : List TextResult) (mfccRes : List MfccRec)
    (timeRes : List TimeRec) (i : ℕ) (word : String) :
    Except Unit (WordAnalysis × ℚ × Option TimeRec) :=
  let textStatus := match textRes.get? i with
    | some t => t.status
    | none => "fail"
  let timeResult := timeRes.get? i
  let timeMatch := (timeResult.map (fun t => t.timeMatch)).getD false
  let overlapR := (timeResult.map (fun t => t.overlapRat)).getD 0
  let mfccSim : ℚ := match mfccRes.get? i with
    | some m => match m.adjusted with
      | some a => a
      | none => m.similarity
    | none => 0
  Except.bind
    (match textRes.get? i with
     | some t => Except.ok (t.conf.getD 0)
     | none => Except.error ())
    (fun confidence =>
      let textScore : ℚ := if textStatus = "pass" then confidence else 0
      let wordScore : ℚ := textScore * (7/10) + mfccSim * (3/10)
      Except.ok
        ({ word := word, textStatus := textStatus, timeMatch := timeMatch,
           overlapRat := round3 overlapR, mfccSimilarity := round3 mfccSim,
           wordScore := round3 wordScore },
         mfccSim, timeResult))

/-- Value of `wordLoopStep` on a non-raising run (the text-comparison list
is long enough to index), spelled out as a total function of the index. -/
def wordLoopValue (textRes : List TextResult) (mfccRes : List MfccRec)
    (timeRes : List TimeRec) (p : ℕ × String) :
    WordAnalysis × ℚ × Option TimeRec :=
  let textStatus := match textRes.get? p.1 with
    | some t => t.status
    | none => "fail"
  let mfccSim : ℚ := match mfccRes.get? p.1 with
    | some m => match m.adjusted with
      | some a => a
      | none => m.similarity
    | none => 0
  let confidence : ℚ := ((textRes.get? p.1).map (fun t => t.conf.getD 0)).getD 0
  let textScore : ℚ := if textStatus = "pass" then confidence else 0
  ({ word := p.2, textStatus := textStatus,
     timeMatch := ((timeRes.get? p.1).map (fun t => t.timeMatch)).getD false,
     overlapRat := round3 (((timeRes.get? p.1).map (fun t => t.overlapRat)).getD 0),
     mfccSimilarity := round3 mfccSim,
     wordScore := round3 (textScore * (7/10) + mfccSim * (3/10)) },
   mfccSim, timeRes.get? p.1)

/-- Model of `generate_comprehensive_results` (pronunciation.py lines
599-746): per-word rows, pass counts, averages over the rounded stored
values, and failure classification. -/
def generateComprehensiveResults (referenceWords : List String)
    (textRes : List TextResult) (mfccRes : List MfccRec)
    (timeRes : List TimeRec) : Except Unit Report :=
  Except.bind
    (referenceWords.enum.mapM
      (fun p => wordLoopStep textRes mfccRes timeRes p.1 p.2))
    (fun steps =>
  let wordAnalysis := steps.map (fun s => s.1)
  let textPassCount := (wordAnalysis.filter (fun w => w.textStatus = "pass")).length
  let timePassCount := (wordAnalysis.filter (fun w => w.timeMatch)).length
  let sttFailures := steps.filterMap (fun s =>
    match s.2.2 with
    | some t => if t.userStart = none then some s.1.word else none
    | none => none)
  let timeFailures := steps.filterMap (fun s =>
    match s.2.2 with
    | some t =>
      if t.userStart ≠ none ∧ ¬s.1.timeMatch ∧ ¬(t.userStart = none) then
        some s.1.word
      else none
    | none => none)
  let mfccLowQuality := steps.filterMap (fun s =>
    if s.2.1 < 2/5 then some s.1.word else none)
  let n := referenceWords.length
  let textAccuracy : ℚ := if n ≠ 0 then (textPassCount : ℚ) / n else 0
  let timeAccuracy : ℚ := if n ≠ 0 then (timePassCount : ℚ) / n else 0
  let mfccTotal := (wordAnalysis.map (fun w => w.mfccSimilarity)).sum
  let mfccAverage : ℚ :=
    if wordAnalysis.length ≠ 0 then mfccTotal / wordAnalysis.length else 0
  let scoreTotal := (wordAnalysis.map (fun w => w.wordScore)).sum
  let overallScore : ℚ :=
    if wordAnalysis.length ≠ 0 then scoreTotal / wordAnalysis.length else 0
  Except.ok
    { overallScore := round3 overallScore, wordAnalysis := wordAnalysis,
      textAccuracy := round3 textAccuracy, timeAccuracy := round3 timeAccuracy,
      mfccAverage := round3 mfccAverage, totalWords := n,
      passedWords := textPassCount, timeMatchedWords := timePassCount,
      sttFailures := sttFailures, timeFailures := timeFailures,
      mfccLowQuality := mfccLowQuality })

/-! ## mfcc_similarity.py : score calibration and segment extraction -/

/-- Anchor abscissae `sim_points` (mfcc_similarity.py line 22). -/
def simPoints : List ℚ := [0, 1/50, 1/20, 2/25, 9/100, 1/10, 3/10, 2/5, 53/100, 1]

/-- Anchor ordinates `score_points` (mfcc_similarity.py line 23). -/
def scorePoints : List ℚ := [0, 0, 40, 50, 60, 70, 80, 90, 100, 100]

/-- One-dimensional piecewise-linear interpolation over `(x, y)` anchor
pairs with strictly increasing `x`, the semantics of `np.interp` on such
input: clamp to the end anchors outside the range, interpolate linearly
inside. -/
def interpPts (x : ℚ) : List (ℚ × ℚ) → ℚ
  | [] => 0
  | [(_, y0)] => y0
  | (x0, y0) :: (x1, y1) :: rest =>
    if x ≤ x0 then y0
    else if x ≤ x1 then y0 + (y1 - y0) * (x - x0) / (x1 - x0)
    else interpPts x ((x1, y1) :: rest)

/-- Model of `continuous_score` (mfcc_similarity.py lines 25-38):
`np.interp(similarity, sim_points, score_points)`. -/
def continuousScore (similarity : ℚ) : ℚ :=
  interpPts similarity (simPoints.zip scorePoints)

/-- Model of `extract_mfcc_segment` (mfcc_similarity.py lines 324-347).
`frameTimes` is sorted in the pipeline, where `np.searchsorted`'s binary
search coincides with the first index whose time reaches the bound, which is
how the two searches are rendered here. Fewer than 5 selected frames yield
the empty matrix. The frame type is left polymorphic: the function only
slices rows. -/
def extractMfccSegment {α : Type} (mfcc : List α) (frameTimes : List ℚ)
    (startTime endTime : ℚ) : List α :=
  let startIdx := frameTimes.findIdx (fun t => startTime ≤ t)
  let endIdx0 := frameTimes.findIdx (fun t => endTime < t)
  let startIdx1 := max 0 startIdx
  let endIdx := min mfcc.length endIdx0
  if endIdx - startIdx1 < 5 then []
  else (mfcc.drop startIdx1).take (endIdx - startIdx1)

/-! ## textgrid_comparator.py : pitch similarity analysis -/

/-- One point of a pitch track: a time and an optional frequency (`none`
models the JSON `null` of an unvoiced frame). -/
structure PitchPt where
  time : ℚ
  hz : Option ℚ
  deriving DecidableEq, Repr

/-- One scoring segment handed to `analyze_pitch_similarity`. -/
structure PitchSeg where
  text : String
  segStart : ℚ
  segEnd : ℚ
  deriving DecidableEq, Repr

/-- Per-segment detail row of the pitch analysis result. -/
structure SegDetail where
  text : String
  segStart : ℚ
  segEnd : ℚ
  similarity : Option ℚ
  deriving DecidableEq, Repr

/-- Result of the pitch analysis: aggregate similarity plus details. -/
structure PitchRes where
  pitchSimilarity : ℚ
  segmentDetails : List SegDetail
  deriving DecidableEq, Repr

/-- Model of `extract_pitch_segment_safe` (textgrid_comparator.py lines
189-195): keep the frequencies of the points inside the window that are
present and positive. -/
def extractPitchSegmentSafe (pitchData : List PitchPt) (s e : ℚ) : List ℚ :=
  pitchData.filterMap (fun p =>
    match p.hz with
    | some h => if s ≤ p.time ∧ p.time ≤ e ∧ h > 0 then some h else none
    | none => none)

/-- Whether a segment qualifies for similarity computation: both extracted
pitch segments have strictly more than 5 points (textgrid_comparator.py
line 368). -/
def pitchQualifies (refData userData : List PitchPt) (seg : PitchSeg) : Prop :=
  (extractPitchSegmentSafe refData seg.segStart seg.segEnd).length > 5 ∧
    (extractPitchSegmentSafe userData seg.segStart seg.segEnd).length > 5

instance (refData userData : List PitchPt) (seg : PitchSeg) :
    Decidable (pitchQualifies refData userData seg) := by
  unfold pitchQualifies; infer_instance

/-- Model of the segment loop and aggregation of `analyze_pitch_similarity`
(textgrid_comparator.py lines 357-390), parameterized by the segment
similarity function `simFn` (in the source, `calculate_dtw_pitch_similarity`;
the analysis structure proved about here is independent of its values). A
segment where either side has at most 5 extracted points gets similarity
`none`; `none` entries are skipped when the aggregate average is formed, and
the average of an empty collection is 0. -/
def analyzePitchSimilarity (simFn : List ℚ → List ℚ → ℚ)
    (refData userData : List PitchPt) (segments : List PitchSeg) : PitchRes :=
  let per : List (PitchSeg × Option ℚ) := segments.map (fun seg =>
    let r := extractPitchSegmentSafe refData seg.segStart seg.segEnd
    let u := extractPitchSegmentSafe userData seg.segStart seg.segEnd
    (seg, if r.length > 5 ∧ u.length > 5 then some (simFn r u) else none))
  let segmentResults := per.map (fun p =>
    { text := p.1.text, segStart := p.1.segStart, segEnd := p.1.segEnd,
      similarity := p.2.map round3 : SegDetail })
  let sims := per.filterMap (fun p => p.2)
  let avg : ℚ := if sims.isEmpty then 0 else sims.sum / sims.length
  { pitchSimilarity := round3 avg, segmentDetails := segmentResults }

/-! ## mfcc_similarity.py : the frame-wise Euclidean similarity pipeline

Standard deviations and Euclidean norms need square roots, so this part of
the model lives in `ℝ`; every other operation is still exact field
arithmetic. Matrices are lists of frames (rows); NumPy's `axis=0`
reductions become per-column operations through `column`. -/

noncomputable section

/-- Mean of a list of reals, `np.mean`. -/
def lmean (xs : List ℝ) : ℝ := xs.sum / xs.length

/-- Population standard deviation of a list of reals, `np.std`. -/
def lstd (xs : List ℝ) : ℝ := Real.sqrt (lmean (xs.map (fun x => (x - lmean xs) ^ 2)))

/-- Number of columns of a matrix (rows are kept at uniform width by the
pipeline). -/
def widthOf (M : List (List ℝ)) : ℕ := (M.headD []).length

/-- Column `j` of a matrix. -/
def column (M : List (List ℝ)) (j : ℕ) : List ℝ := M.map (fun r => r.getD j 0)

/-- The `1e-9` guard added to standard deviations. -/
def epsStd : ℝ := 1 / 1000000000

/-- The `1e-6` collapse threshold of the percentile range. -/
def epsClip : ℝ := 1 / 1000000

/-- Model of `_apply_cmvn` (mfcc_similarity.py lines 40-64): per-column
zero-mean/unit-variance normalization of every column, the standard
deviation guarded by `1e-9`. -/
def applyCmvn (M : List (List ℝ)) : List (List ℝ) :=
  if M.length = 0 then M
  else M.map (fun r => (List.range (widthOf M)).map (fun j =>
    (r.getD j 0 - lmean (column M j)) / (lstd (column M j) + epsStd)))

/-- Ascending sort of a list of reals (`np.percentile` sorts its input). -/
def sortAsc (xs : List ℝ) : List ℝ := xs.insertionSort (· ≤ ·)

/-- Model of `np.percentile(xs, q)` with the default linear interpolation:
the value at fractional rank `q/100 * (n-1)` of the sorted data. -/
def percentileQ (xs : List ℝ) (q : ℚ) : ℝ :=
  let s := sortAsc xs
  let h : ℚ := q * ((xs.length : ℚ) - 1) / 100
  let lo : ℕ := (⌊h⌋).toNat
  let frac : ℚ := h - ⌊h⌋
  s.getD lo 0 + (frac : ℝ) * (s.getD (lo + 1) (s.getD lo 0) - s.getD lo 0)

/-- Model of `cmvn_with_c0_clipping` (mfcc_similarity.py lines 66-96), the
CMVN+clip scheme of spec section 4.3: columns from 1 on get per-column
zero-mean/unit-variance normalization; column 0 is clipped to its
[5th, 95th] percentile range and rescaled to [0, 1], with a constant 0.5
when that range collapses below `1e-6`. -/
def cmvnWithC0Clipping (M : List (List ℝ)) : List (List ℝ) :=
  if M.length = 0 then M
  else
    let c0 := column M 0
    let c0min := percentileQ c0 5
    let c0max := percentileQ c0 95
    let c0norm : List ℝ :=
      if c0max - c0min < epsClip then c0.map (fun _ => (1/2 : ℝ))
      else c0.map (fun x => (min (max x c0min) c0max - c0min) / (c0max - c0min))
    let restNorm : List ℝ → List ℝ := fun r =>
      (List.range (widthOf M - 1)).map (fun j0 =>
        (r.getD (j0 + 1) 0 - lmean (column M (j0 + 1))) /
          (lstd (column M (j0 + 1)) + epsStd))
    List.zipWith (fun c0v r => c0v :: restNorm r) c0norm M

/-- Start of the length-`W` sample window used for position `i` of an
`n`-sample signal by `scipy.signal.savgol_filter` in `mode='interp'`:
centered in the interior, the first (resp. last) `W` samples near the edges,
where the filter refits a polynomial to the edge window. -/
def winStart (n W i : ℕ) : ℕ :=
  let h := W / 2
  if i < h then 0 else if i + h ≥ n then n - W else i - h

/-- The window of `xs` used for position `i` with window length `W`. -/
def windowOf (xs : List ℝ) (W i : ℕ) : List ℝ :=
  (xs.drop (winStart xs.length W i)).take W

/-- First derivative estimated by a Savitzky-Golay filter with
`polyorder = deriv = 1`: the least-squares slope of the window (both the
interior convolution and the `interp` edge refit reduce to this constant
slope, the first derivative of the fitted line). -/
def savgolD1 (v : List ℝ) : ℝ :=
  let W := v.length
  let m : ℝ := ((W : ℝ) - 1) / 2
  (((List.range W).map (fun j : ℕ => ((j : ℝ) - m) * v.getD j 0)).sum) /
    (((List.range W).map (fun j : ℕ => ((j : ℝ) - m) ^ 2)).sum)

/-- Second derivative estimated by a Savitzky-Golay filter with
`polyorder = deriv = 2`: twice the leading coefficient of the least-squares
parabola through the window (constant over the window, for the interior and
the `interp` edge refit alike). The centered normal equations decouple, so
the leading coefficient has the closed form below. -/
def savgolD2 (v : List ℝ) : ℝ :=
  let W := v.length
  let m : ℝ := ((W : ℝ) - 1) / 2
  let s2 := ((List.range W).map (fun j : ℕ => ((j : ℝ) - m) ^ 2)).sum
  let s4 := ((List.range W).map (fun j : ℕ => ((j : ℝ) - m) ^ 4)).sum
  let t0 := v.sum
  let t2 := ((List.range W).map (fun j : ℕ => ((j : ℝ) - m) ^ 2 * v.getD j 0)).sum
  2 * (((W : ℝ) * t2 - s2 * t0) / ((W : ℝ) * s4 - s2 ^ 2))

/-- Per-column first-derivative matrix, `librosa.feature.delta(M.T, width=W).T`. -/
def deltaMat (M : List (List ℝ)) (W : ℕ) : List (List ℝ) :=
  (List.range M.length).map (fun i => (List.range (widthOf M)).map (fun j =>
    savgolD1 (windowOf (column M j) W i)))

/-- Per-column second-derivative matrix,
`librosa.feature.delta(M.T, order=2, width=W).T`. -/
def delta2Mat (M : List (List ℝ)) (W : ℕ) : List (List ℝ) :=
  (List.range M.length).map (fun i => (List.range (widthOf M)).map (fun j =>
    savgolD2 (windowOf (column M j) W i)))

/-- Row-wise concatenation of three matrices,
`np.concatenate([A, B, C], axis=1)` for matrices of equal frame count. -/
def rowConcat3 (A B C : List (List ℝ)) : List (List ℝ) :=
  List.zipWith (fun a bc => a ++ bc.1 ++ bc.2) A (B.zip C)

/-- Model of `_add_delta_features` (mfcc_similarity.py lines 98-153):
edge-pad matrices of fewer than 5 frames to 5 frames, compute width-3
derivatives and strip the padding; use an odd window matching the frame
count for 5 to 8 frames; use the default width 9 from 9 frames on. The
original, delta and delta-delta blocks are concatenated per frame. -/
def addDeltaFeatures (M : List (List ℝ)) : List (List ℝ) :=
  if M.length = 0 then []
  else
    let n := M.length
    if n < 5 then
      let padSize := 5 - n
      let padded := List.replicate padSize (M.headD []) ++ M ++
        List.replicate padSize (M.getLastD [])
      let d1 := ((deltaMat padded 3).drop padSize).take n
      let d2 := ((delta2Mat padded 3).drop padSize).take n
      rowConcat3 M d1 d2
    else if n < 9 then
      let w0 := if n % 2 = 1 then n else n - 1
      let w := max 3 w0
      rowConcat3 M (deltaMat M w) (delta2Mat M w)
    else
      rowConcat3 M (deltaMat M 9) (delta2Mat M 9)

/-- Model of `_calculate_std_deviation` (mfcc_similarity.py lines 482-506):
mean of the per-column standard deviations over the first 13 columns (all
columns when the matrix is narrower). -/
def calcStdDeviation (M : List (List ℝ)) : ℝ :=
  if M.length = 0 then 0
  else
    let w := widthOf M
    let k := if 13 ≤ w then 13 else w
    lmean ((List.range k).map (fun j => lstd (column M j)))

/-- The `std_ratio` of `frame_wise_euclidean_similarity` (line 221):
user standard deviation over reference standard deviation, 0 when the
reference standard deviation is not positive. -/
def stdQuot (refM userM : List (List ℝ)) : ℝ :=
  if 0 < calcStdDeviation refM then calcStdDeviation userM / calcStdDeviation refM
  else 0

/-- Model of `_pad_reference_mfcc` (mfcc_similarity.py lines 155-181):
edge-pad a matrix at the bottom, repeating the last frame, up to the target
frame count. -/
def padReferenceMfcc (M : List (List ℝ)) (target : ℕ) : List (List ℝ) :=
  if target ≤ M.length then M
  else M ++ List.replicate (target - M.length) (M.getLastD [])

/-- The fixed per-block weight vector `w` (lines 251-257): 1.5 on the
original block, 0.8 on the delta block, 0.3 on the delta-delta block. -/
def dimensionWeights (d : ℕ) : List ℝ :=
  List.replicate d (3/2) ++ List.replicate d (4/5) ++ List.replicate d (3/10)

/-- Conditional derivative augmentation (mfcc_similarity.py lines 237-244):
a 13-column matrix is augmented to 39 columns, a wider one kept as is. -/
def augmented (M : List (List ℝ)) : List (List ℝ) :=
  if widthOf M = 13 then addDeltaFeatures M else M

/-- The frame-wise weighted Euclidean distances of the main path of
`frame_wise_euclidean_similarity` (lines 237-275): augment if needed,
normalize with `normFn`, weight per block, edge-pad the shorter matrix and
take per-frame Euclidean distances. -/
def mainDists (normFn : List (List ℝ) → List (List ℝ))
    (refM userM : List (List ℝ)) : List ℝ :=
  let refN := normFn (augmented refM)
  let userN := normFn (augmented userM)
  let d := widthOf refN / 3
  let w := dimensionWeights d
  let refW := refN.map (fun row => List.zipWith (fun x y => x * y) row w)
  let userW := userN.map (fun row => List.zipWith (fun x y => x * y) row w)
  let refP := padReferenceMfcc refW userW.length
  let userP := padReferenceMfcc userW refW.length
  List.zipWith
    (fun a b => Real.sqrt ((List.zipWith (fun x y => (x - y) ^ 2) a b).sum))
    refP userP

/-- Value of the main path of `frame_wise_euclidean_similarity` (lines
273-288): similarity `1 / (1 + meanDistance)` with the multiplicative
standard-deviation penalty applied when `std_ratio < 1`. -/
def mainPathValue (normFn : List (List ℝ) → List (List ℝ))
    (refM userM : List (List ℝ)) : ℝ :=
  let dists := mainDists normFn refM userM
  let meanDistance := dists.sum / dists.length
  let sim := 1 / (1 + meanDistance)
  let r := stdQuot refM userM
  if r < 1 then sim * (1 - (1 - r) * (3/10)) else sim

/-- Model of `frame_wise_euclidean_similarity` (mfcc_similarity.py lines
185-292) with the segment normalization function as an explicit parameter
(the source hardcodes `_apply_cmvn` there; the spec claims the
`cmvn_with_c0_clipping` scheme). Empty or shorter-than-5-frame inputs score
0; a standard-deviation quotient under 0.5 takes the omission short-circuit;
otherwise 13-column inputs get derivative augmentation, both segments are
normalized and weighted, the shorter is edge-padded, and the mean frame-wise
Euclidean distance is turned into a similarity with a variance penalty. -/
def fwesWith (normFn : List (List ℝ) → List (List ℝ))
    (refM userM : List (List ℝ)) : ℝ :=
  if refM.length = 0 ∨ userM.length = 0 then 0
  else if refM.length < 5 ∨ userM.length < 5 then 0
  else
    let r := stdQuot refM userM
    if r < 1/2 then (1/20) * (1 - (1 - r / (1/2)))
    else mainPathValue normFn refM userM

/-- The function implemented by the source:
`frame_wise_euclidean_similarity`, which normalizes with `_apply_cmvn`. -/
def frameWiseEuclideanSimilarity : List (List ℝ) → List (List ℝ) → ℝ :=
  fwesWith applyCmvn

/-- Modelled from the spec's words for claim C1: the same pipeline but
normalizing each segment with the CMVN+clip scheme `cmvn_with_c0_clipping`
of spec section 4.3, as the spec asserts `compareSegments` does. -/
def frameWiseEuclideanSimilaritySpec : List (List ℝ) → List (List ℝ) → ℝ :=
  fwesWith cmvnWithC0Clipping

/-- Uniform row width of a matrix. -/
def UniformW (M : List (List ℝ)) (w : ℕ) : Prop := ∀ r ∈ M, r.length = w

/-- The all-zero 39-dimensional frame of the claim C1 counterexample. -/
def zrow : List ℝ := List.replicate 39 0

/-- Last reference frame of the claim C1 counterexample. -/
def rrow : List ℝ := 5 :: 5 :: List.replicate 37 0

/-- Last user frame of the claim C1 counterexample. -/
def urow : List ℝ := 10 :: 5 :: List.replicate 37 0

/-- Reference matrix of the claim C1 counterexample: five 39-dimensional
frames, constant zero except for columns 0 and 1 of the last frame. -/
def refMat : List (List ℝ) := [zrow, zrow, zrow, zrow, rrow]

/-- User matrix of the claim C1 counterexample: identical to `refMat`
except that the energy entry of the last frame is 10 instead of 5. -/
def userMat : List (List ℝ) := [zrow, zrow, zrow, zrow, urow]

end

/-! ## Theorems -/

/-- Helper: a record update subtracting 0 from both times is the identity. -/
theorem seg_shift_zero (s : Seg) :
    { s with startTime := s.startTime - 0, endTime := s.endTime - 0 } = s := by
  cases s; simp

/-- C9: for every non-empty span sequence, `normalize_segments_to_zero`
subtracts the first span's original start time from every span's start and
end time (so the returned first span starts at 0), and applying it a second
time to its own output returns an equal sequence. -/
theorem normalizeSegmentsToZero_spec (segments : List Seg) (h : segments ≠ []) :
    normalizeSegmentsToZero segments =
      segments.map (fun s =>
        { s with startTime := s.startTime - (segments.head h).startTime,
                 endTime := s.endTime - (segments.head h).startTime }) ∧
    ((normalizeSegmentsToZero segments).head? ).map (fun s => s.startTime) = some 0 ∧
    normalizeSegmentsToZero (normalizeSegmentsToZero segments) =
      normalizeSegmentsToZero segments := by
  have key : ∀ (s0 : Seg) (l : List Seg), s0.startTime = 0 →
      normalizeSegmentsToZero (s0 :: l) = s0 :: l := by
    intro s0 l h0
    show (s0 :: l).map (fun s =>
      { s with startTime := s.startTime - s0.startTime,
               endTime := s.endTime - s0.startTime }) = s0 :: l
    rw [h0]
    simp only [sub_zero]
    exact (List.map_congr_left (fun s _ => by cases s; rfl)).trans (List.map_id _)
  obtain ⟨s0, rest, rfl⟩ := List.exists_cons_of_ne_nil h
  refine ⟨rfl, by simp [normalizeSegmentsToZero], ?_⟩
  have hin : normalizeSegmentsToZero (s0 :: rest) =
      { s0 with startTime := s0.startTime - s0.startTime,
                endTime := s0.endTime - s0.startTime } ::
        rest.map (fun s =>
          { s with startTime := s.startTime - s0.startTime,
                   endTime := s.endTime - s0.startTime }) := rfl
  rw [hin]
  exact key _ _ (sub_self _)

/-- Witness for C9 at a concrete two-span input. -/
theorem normalizeSegmentsToZero_spec_witness :
    normalizeSegmentsToZero [⟨"a", 2, 3, 1⟩, ⟨"b", 4, 5, 1⟩] =
      [⟨"a", 0, 1, 1⟩, ⟨"b", 2, 3, 1⟩] ∧
    normalizeSegmentsToZero (normalizeSegmentsToZero [⟨"a", 2, 3, 1⟩, ⟨"b", 4, 5, 1⟩]) =
      normalizeSegmentsToZero [⟨"a", 2, 3, 1⟩, ⟨"b", 4, 5, 1⟩] := by
  have h := normalizeSegmentsToZero_spec [⟨"a", 2, 3, 1⟩, ⟨"b", 4, 5, 1⟩] (by simp)
  refine ⟨h.1.trans ?_, h.2.2⟩
  with_unfolding_all decide

/-- C3 (amended): with reference word cat on [0, 0.5] and the single user
candidate cat on [0.1, 0.45], the status is "pass"; with the single user
candidate cat on [2.0, 2.5], both sequences are first normalized to a zero
origin, which shifts the lone candidate to [0.0, 0.5], so the status is
also "pass" with lcs similarity 1 (not "fail" with similarity 0 as the
claim asserts). -/
theorem scoreTextAlignment_scenarios :
    scoreTextAlignment [⟨"cat", 0, 1/2, 1⟩] [⟨"cat", 1/10, 9/20, 9/10⟩] =
      [⟨"cat", "pass", 1, some (9/10)⟩] ∧
    scoreTextAlignment [⟨"cat", 0, 1/2, 1⟩] [⟨"cat", 2, 5/2, 9/10⟩] =
      [⟨"cat", "pass", 1, some (9/10)⟩] := by
  exact ⟨by with_unfolding_all decide, by with_unfolding_all decide⟩

/-- C3 counterexample: the out-of-window candidate cat on [2.0, 2.5] does
not produce status "fail"; the zero-origin normalization inside
`score_text_alignment` realigns it and the word passes. -/
theorem scoreTextAlignment_outside_window_passes :
    (scoreTextAlignment [⟨"cat", 0, 1/2, 1⟩] [⟨"cat", 2, 5/2, 9/10⟩]).map
        (fun r => r.status) ≠ ["fail"] := by
  with_unfolding_all decide

/-- Helper: the interpolant is at least the first anchor's ordinate when the
abscissae increase and the ordinates are monotone. -/
theorem interpPts_ge_head (x : ℚ) :
    ∀ (p0 : ℚ × ℚ) (l : List (ℚ × ℚ)),
      List.Chain' (fun p q => p.1 < q.1) (p0 :: l) →
      List.Chain' (fun p q => p.2 ≤ q.2) (p0 :: l) →
      p0.2 ≤ interpPts x (p0 :: l) := by
  intro p0 l
  induction l generalizing p0 with
  | nil =>
    intro _ _
    obtain ⟨x0, y0⟩ := p0
    simp [interpPts]
  | cons p1 rest ih =>
    intro hx hy
    obtain ⟨h01x, hx'⟩ := List.chain'_cons.mp hx
    obtain ⟨h01y, hy'⟩ := List.chain'_cons.mp hy
    obtain ⟨x0, y0⟩ := p0
    obtain ⟨x1, y1⟩ := p1
    simp only [interpPts]
    split_ifs with h1 h2
    · exact le_rfl
    · have hnn : 0 ≤ (y1 - y0) * (x - x0) / (x1 - x0) := by
        apply div_nonneg
        · apply mul_nonneg
          · simpa using h01y
          · simp only [not_le] at h1
            linarith
        · simp only at h01x
          linarith
      linarith
    · exact le_trans (by simpa using h01y) (ih (x1, y1) hx' hy')

/-- Helper: inside or left of the second anchor, the interpolant is at most
the second anchor's ordinate. -/
theorem interpPts_le_snd (x : ℚ) (x0 y0 x1 y1 : ℚ) (l : List (ℚ × ℚ))
    (h01x : x0 < x1) (h01y : y0 ≤ y1) (hx : x ≤ x1) :
    interpPts x ((x0, y0) :: (x1, y1) :: l) ≤ y1 := by
  simp only [interpPts]
  by_cases h1 : x ≤ x0
  · rw [if_pos h1]
    exact h01y
  · rw [if_neg h1, if_pos hx]
    have hle : (y1 - y0) * (x - x0) / (x1 - x0) ≤ y1 - y0 := by
      rw [div_le_iff₀ (by linarith)]
      have h2' := mul_le_mul_of_nonneg_left (show x - x0 ≤ x1 - x0 by linarith)
        (show (0:ℚ) ≤ y1 - y0 by linarith)
      linarith
    linarith

/-- Helper: `np.interp` over strictly increasing abscissae and monotone
ordinates is monotone in its argument. -/
theorem interpPts_mono (x y : ℚ) (hxy : x ≤ y) :
    ∀ l : List (ℚ × ℚ),
      List.Chain' (fun p q => p.1 < q.1) l →
      List.Chain' (fun p q => p.2 ≤ q.2) l →
      interpPts x l ≤ interpPts y l := by
  intro l
  induction l with
  | nil => intro _ _; simp [interpPts]
  | cons p0 l ih =>
    cases l with
    | nil =>
      intro _ _
      obtain ⟨x0, y0⟩ := p0
      simp [interpPts]
    | cons p1 rest =>
      intro hx hy
      obtain ⟨h01x, hx'⟩ := List.chain'_cons.mp hx
      obtain ⟨h01y, hy'⟩ := List.chain'_cons.mp hy
      obtain ⟨x0, y0⟩ := p0
      obtain ⟨x1, y1⟩ := p1
      simp only at h01x h01y
      by_cases hy0 : y ≤ x0
      · have hx0 : x ≤ x0 := le_trans hxy hy0
        simp only [interpPts]
        rw [if_pos hx0, if_pos hy0]
      · by_cases hx0 : x ≤ x0
        · calc interpPts x ((x0, y0) :: (x1, y1) :: rest) = y0 := by
                simp only [interpPts]; rw [if_pos hx0]
            _ ≤ interpPts y ((x0, y0) :: (x1, y1) :: rest) :=
                interpPts_ge_head y (x0, y0) ((x1, y1) :: rest) hx hy
        · by_cases hy1 : y ≤ x1
          · have hx1 : x ≤ x1 := le_trans hxy hy1
            simp only [interpPts]
            rw [if_neg hx0, if_pos hx1, if_neg hy0, if_pos hy1]
            have hstep : (y1 - y0) * (x - x0) / (x1 - x0) ≤
                (y1 - y0) * (y - x0) / (x1 - x0) := by
              apply (div_le_div_iff_of_pos_right (by linarith)).mpr
              exact mul_le_mul_of_nonneg_left (by linarith) (by linarith)
            linarith
          · by_cases hx1 : x ≤ x1
            · calc interpPts x ((x0, y0) :: (x1, y1) :: rest) ≤ y1 :=
                    interpPts_le_snd x x0 y0 x1 y1 rest h01x h01y hx1
                _ ≤ interpPts y ((x1, y1) :: rest) :=
                    interpPts_ge_head y (x1, y1) rest hx' hy'
                _ = interpPts y ((x0, y0) :: (x1, y1) :: rest) := by
                    simp only [interpPts]; rw [if_neg hy0, if_neg hy1]
            · simp only [interpPts]
              rw [if_neg hx0, if_neg hx1, if_neg hy0, if_neg hy1]
              exact ih hx' hy'

/-- Helper: right of every anchor, the interpolant is the last ordinate. -/
theorem interpPts_beyond (x : ℚ) :
    ∀ (p : ℚ × ℚ) (l : List (ℚ × ℚ)), (∀ q ∈ p :: l, q.1 < x) →
      interpPts x (p :: l) = ((p :: l).getLast (by simp)).2 := by
  intro p l
  induction l generalizing p with
  | nil =>
    intro _
    obtain ⟨x0, y0⟩ := p
    simp [interpPts]
  | cons p1 rest ih =>
    intro h
    obtain ⟨x0, y0⟩ := p
    obtain ⟨x1, y1⟩ := p1
    simp only [interpPts]
    rw [if_neg (not_le.mpr (h (x0, y0) (by simp))),
      if_neg (not_le.mpr (h (x1, y1) (by simp))),
      ih (x1, y1) (fun q hq => h q (List.mem_cons_of_mem _ hq)),
      List.getLast_cons_cons]

/-- C4: `continuous_score` is monotone non-decreasing on its whole domain,
maps 0 to 0 and 1 to 100, maps 0.45 into [90, 100], and clamps inputs
outside the anchor range [0, 1] to the nearest end anchor's score. -/
theorem continuousScore_spec :
    (∀ x y : ℚ, x ≤ y → continuousScore x ≤ continuousScore y) ∧
    continuousScore 0 = 0 ∧ continuousScore 1 = 100 ∧
    90 ≤ continuousScore (9/20) ∧ continuousScore (9/20) ≤ 100 ∧
    (∀ x : ℚ, x < 0 → continuousScore x = 0) ∧
    (∀ x : ℚ, 1 < x → continuousScore x = 100) := by
  refine ⟨?_, ?_, ?_, ?_, ?_, ?_, ?_⟩
  · intro x y hxy
    exact interpPts_mono x y hxy (simPoints.zip scorePoints)
      (by norm_num [simPoints, scorePoints, List.zip_cons_cons, List.chain'_cons,
        List.chain'_singleton])
      (by norm_num [simPoints, scorePoints, List.zip_cons_cons, List.chain'_cons,
        List.chain'_singleton])
  · with_unfolding_all decide
  · with_unfolding_all decide
  · with_unfolding_all decide
  · with_unfolding_all decide
  · intro x hx
    show interpPts x (simPoints.zip scorePoints) = 0
    rw [show simPoints.zip scorePoints =
      ((0:ℚ), (0:ℚ)) :: ((1/50:ℚ), (0:ℚ)) :: ((1/20:ℚ), (40:ℚ)) ::
      ((2/25:ℚ), (50:ℚ)) :: ((9/100:ℚ), (60:ℚ)) :: ((1/10:ℚ), (70:ℚ)) ::
      ((3/10:ℚ), (80:ℚ)) :: ((2/5:ℚ), (90:ℚ)) :: ((53/100:ℚ), (100:ℚ)) ::
      [((1:ℚ), (100:ℚ))] from rfl]
    simp only [interpPts]
    rw [if_pos (le_of_lt hx)]
  · intro x hx
    show interpPts x (simPoints.zip scorePoints) = 100
    rw [show simPoints.zip scorePoints =
      ((0:ℚ), (0:ℚ)) :: ((1/50:ℚ), (0:ℚ)) :: ((1/20:ℚ), (40:ℚ)) ::
      ((2/25:ℚ), (50:ℚ)) :: ((9/100:ℚ), (60:ℚ)) :: ((1/10:ℚ), (70:ℚ)) ::
      ((3/10:ℚ), (80:ℚ)) :: ((2/5:ℚ), (90:ℚ)) :: ((53/100:ℚ), (100:ℚ)) ::
      [((1:ℚ), (100:ℚ))] from rfl]
    rw [interpPts_beyond x _ _ ?_]
    · rfl
    · intro q hq
      simp only [List.mem_cons, List.not_mem_nil, or_false] at hq
      rcases hq with rfl | rfl | rfl | rfl | rfl | rfl | rfl | rfl | rfl | rfl <;>
        simp <;> linarith

/-- Witness for C4: monotonicity and clamping applied at concrete inputs. -/
theorem continuousScore_spec_witness :
    continuousScore (1/10) ≤ continuousScore (3/10) ∧
    continuousScore (-1) = 0 ∧ continuousScore (3/2) = 100 := by
  obtain ⟨hmono, _, _, _, _, hlow, hhigh⟩ := continuousScore_spec
  exact ⟨hmono _ _ (by norm_num), hlow _ (by norm_num), hhigh _ (by norm_num)⟩

/-- C5: the claim says per-word scoring failures are absorbed locally and
the per-word analysis steps never raise, in particular for words whose
normalization is an empty token list. The code contradicts it:
`analyze_time_overlap` indexes `normalize_and_tokenize(item['word'])[0]`
without a guard, so a user word such as "!!!" (empty token list) raises an
uncaught `IndexError`, aborting the whole job instead of being absorbed. -/
theorem analyzeTimeOverlap_empty_token_raises :
    analyzeTimeOverlap [⟨"cat", 0, 1/2, 1⟩] [⟨"!!!", 0, 1/2, 9/10⟩] =
      Except.error () := by
  with_unfolding_all decide

/-- Helper: `findIdx` returns the length when no element satisfies the
predicate. -/
theorem findIdx_eq_length_of_none {α : Type} (p : α → Bool) :
    ∀ l : List α, (∀ a ∈ l, p a = false) → l.findIdx p = l.length := by
  intro l h
  induction l with
  | nil => rfl
  | cons a l ih =>
    rw [List.findIdx_cons, h a (by simp)]
    simp only [cond_false, List.length_cons]
    rw [ih (fun b hb => h b (by simp [hb]))]

/-- C6 (amended): for a feature matrix with at least 5 frames and a sorted
frame-times array inside [0, duration], extracting the full span [0,
duration] returns every frame. (With fewer than 5 frames the function
returns the empty matrix instead, refuting the unrestricted claim.) -/
theorem extractMfccSegment_full_span {α : Type} (M : List α) (times : List ℚ)
    (dur : ℚ) (hsort : times.Chain' (· ≤ ·)) (hlen : times.length = M.length)
    (hnn : ∀ t ∈ times, 0 ≤ t) (hub : ∀ t ∈ times, t ≤ dur)
    (h5 : 5 ≤ M.length) :
    extractMfccSegment M times 0 dur = M := by
  have hne : times ≠ [] := by
    intro h
    rw [h] at hlen
    simp at hlen
    omega
  obtain ⟨t0, rest, rfl⟩ := List.exists_cons_of_ne_nil hne
  have hstart : (t0 :: rest).findIdx (fun t => decide ((0:ℚ) ≤ t)) = 0 := by
    rw [List.findIdx_cons]
    simp [hnn t0 (by simp)]
  have hend : (t0 :: rest).findIdx (fun t => decide (dur < t)) =
      (t0 :: rest).length := by
    apply findIdx_eq_length_of_none
    intro a ha
    simp only [decide_eq_false_iff_not, not_lt]
    exact hub a ha
  unfold extractMfccSegment
  rw [hstart, hend, hlen]
  simp only [min_self, Nat.max_self, Nat.sub_zero, List.drop_zero]
  rw [if_neg (by omega)]
  simp

/-- Witness for C6 at a concrete 5-frame matrix. -/
theorem extractMfccSegment_full_span_witness :
    extractMfccSegment [[(1:ℚ)], [2], [3], [4], [5]] [0, 1, 2, 3, 4] 0 4 =
      [[(1:ℚ)], [2], [3], [4], [5]] :=
  extractMfccSegment_full_span _ _ _
    (by norm_num [List.chain'_cons, List.chain'_singleton])
    (by rfl)
    (by with_unfolding_all decide)
    (by with_unfolding_all decide)
    (by norm_num)

/-- C6 counterexample: on a 4-frame matrix with frame times spanning
[0, 3], extracting the full span returns the empty matrix, not every
frame, because of the minimum-5-frames rule. -/
theorem extractMfccSegment_short_full_span :
    extractMfccSegment [[(1:ℚ)], [2], [3], [4]] [0, 1, 2, 3] 0 3 = [] ∧
      ([] : List (List ℚ)) ≠ [[(1:ℚ)], [2], [3], [4]] := by
  exact ⟨by with_unfolding_all decide, by simp⟩

/-- Helper: `round3 0 = 0`. -/
theorem round3_zero : round3 0 = 0 := by
  norm_num [round3, roundHalfEven]

/-- C8: a segment's pitch similarity is present iff both the reference and
the user extraction yield strictly more than 5 points; a segment failing
that guard carries `none` and is excluded from the aggregate average (adding
it leaves the aggregate unchanged), and when no segment qualifies the
aggregate is 0. Stated for every segment similarity function, hence in
particular for the DTW one of the source. -/
theorem analyzePitchSimilarity_spec (simFn : List ℚ → List ℚ → ℚ)
    (refData userData : List PitchPt) (segments : List PitchSeg) :
    ((analyzePitchSimilarity simFn refData userData segments).segmentDetails.length
        = segments.length) ∧
    (∀ i seg, segments.get? i = some seg →
      ∃ d, (analyzePitchSimilarity simFn refData userData
              segments).segmentDetails.get? i = some d ∧
        (d.similarity.isSome ↔ pitchQualifies refData userData seg)) ∧
    (∀ seg, ¬ pitchQualifies refData userData seg →
      (analyzePitchSimilarity simFn refData userData
          (segments ++ [seg])).pitchSimilarity
        = (analyzePitchSimilarity simFn refData userData segments).pitchSimilarity) ∧
    ((∀ seg ∈ segments, ¬ pitchQualifies refData userData seg) →
      (analyzePitchSimilarity simFn refData userData segments).pitchSimilarity = 0) := by
  refine ⟨?_, ?_, ?_, ?_⟩
  · simp [analyzePitchSimilarity]
  · intro i seg hseg
    unfold analyzePitchSimilarity
    simp only [List.get?_map, hseg, Option.map_some']
    refine ⟨_, rfl, ?_⟩
    by_cases hq : pitchQualifies refData userData seg
    · unfold pitchQualifies at hq
      rw [if_pos hq]
      simpa [pitchQualifies] using hq
    · unfold pitchQualifies at hq
      rw [if_neg hq]
      simpa [pitchQualifies] using hq
  · intro seg hq
    unfold pitchQualifies at hq
    unfold analyzePitchSimilarity
    simp only [List.map_append, List.filterMap_append, List.map_cons,
      List.map_nil, List.filterMap_cons, List.filterMap_nil]
    rw [if_neg hq]
    simp
  · intro hall
    unfold analyzePitchSimilarity
    have hnil : (segments.map (fun seg =>
        let r := extractPitchSegmentSafe refData seg.segStart seg.segEnd
        let u := extractPitchSegmentSafe userData seg.segStart seg.segEnd
        (seg, if r.length > 5 ∧ u.length > 5 then some (simFn r u)
          else none))).filterMap (fun p => p.2) = [] := by
      rw [List.filterMap_eq_nil]
      intro p hp
      obtain ⟨seg, hseg, rfl⟩ := List.mem_map.mp hp
      have := hall seg hseg
      unfold pitchQualifies at this
      simp only
      rw [if_neg this]
    simp only [hnil]
    simpa using round3_zero

/-- Witness for C8: one qualifying and one non-qualifying segment over a
concrete pitch track; appending the non-qualifying segment keeps the
aggregate unchanged. -/
theorem analyzePitchSimilarity_spec_witness :
    (analyzePitchSimilarity (fun _ _ => 9/10)
        ((List.range 8).map (fun i => ⟨(i : ℚ), some 100⟩))
        ((List.range 8).map (fun i => ⟨(i : ℚ), some 120⟩))
        ([⟨"hello", 0, 7⟩] ++ [⟨"gap", 0, 1⟩])).pitchSimilarity
      = (analyzePitchSimilarity (fun _ _ => 9/10)
          ((List.range 8).map (fun i => ⟨(i : ℚ), some 100⟩))
          ((List.range 8).map (fun i => ⟨(i : ℚ), some 120⟩))
          [⟨"hello", 0, 7⟩]).pitchSimilarity :=
  (analyzePitchSimilarity_spec (fun _ _ => 9/10) _ _ [⟨"hello", 0, 7⟩]).2.2.1
    ⟨"gap", 0, 1⟩ (by with_unfolding_all decide)

/-- Helper: looking up the key just inserted returns the new value. -/
theorem dictFind?_insert_self (d : List (String × Seg)) (k : String) (v : Seg) :
    dictFind? (dictInsert d k v) k = some v := by
  unfold dictInsert
  by_cases h : d.any (fun p => p.1 = k)
  · rw [if_pos h]
    induction d with
    | nil => simp at h
    | cons p d ih =>
      by_cases hp : p.1 = k
      · simp only [List.map_cons, if_pos hp]
        unfold dictFind?
        simp [List.find?]
      · have h' : d.any (fun p => p.1 = k) := by
          simp only [List.any_cons] at h
          rcases Bool.or_eq_true_iff.mp h with hc | hc
          · exact absurd (of_decide_eq_true hc) hp
          · exact hc
        simp only [List.map_cons, if_neg hp]
        unfold dictFind? at ih ⊢
        simp only [List.find?_cons]
        rw [show (decide (p.1 = k)) = false by simp [hp]]
        exact ih h'
  · rw [if_neg h]
    unfold dictFind?
    rw [List.find?_append]
    have hnone : d.find? (fun p => p.1 = k) = none := by
      rw [List.find?_eq_none]
      intro p hp
      simp only [List.any_eq_true, not_exists, not_and] at h
      simpa using h p hp
    rw [hnone]
    simp [List.find?]

/-- Helper: inserting one key leaves the lookup of a different key
unchanged. -/
theorem dictFind?_insert_other (d : List (String × Seg)) (k k' : String)
    (v : Seg) (h : k' ≠ k) :
    dictFind? (dictInsert d k v) k' = dictFind? d k' := by
  unfold dictInsert
  by_cases hc : d.any (fun p => p.1 = k)
  · rw [if_pos hc]
    clear hc
    induction d with
    | nil => rfl
    | cons p d ih =>
      simp only [List.map_cons]
      unfold dictFind? at ih ⊢
      simp only [List.find?_cons]
      by_cases hp : p.1 = k
      · rw [if_pos hp]
        rw [show (decide (k = k')) = false by simp [Ne.symm h],
          show (decide (p.1 = k')) = false by simp [hp, Ne.symm h]]
        exact ih
      · rw [if_neg hp]
        cases hd : decide (p.1 = k') with
        | false => simp only [hd, cond_false]; exact ih
        | true => simp only [hd, cond_true]
  · rw [if_neg hc]
    unfold dictFind?
    have hka : List.find? (fun p => decide (p.1 = k')) [(k, v)] = none := by
      simp [Ne.symm h]
    rw [List.find?_append, hka]
    cases hfd : List.find? (fun p => decide (p.1 = k')) d <;> simp [hfd]

/-- Helper: the dictionary built by left-to-right insertion with overwriting
answers every lookup with the last pair carrying that key, the Python dict
semantics of the comprehension in `analyze_time_overlap`. -/
theorem buildUserDict_find (k : String) :
    ∀ pairs : List (String × Seg),
      dictFind? (buildUserDict pairs) k =
        ((pairs.filter (fun p => p.1 = k)).getLast?).map (fun p => p.2) := by
  intro pairs
  induction pairs using List.reverseRecOn with
  | nil => rfl
  | append_singleton ps p ih =>
    have hfold : buildUserDict (ps ++ [p]) =
        dictInsert (buildUserDict ps) p.1 p.2 := by
      unfold buildUserDict
      rw [List.foldl_append]
      rfl
    rw [hfold, List.filter_append]
    by_cases hp : p.1 = k
    · rw [hp]
      rw [dictFind?_insert_self]
      rw [show List.filter (fun q => decide (q.1 = k)) [p] = [p] by simp [hp]]
      rw [List.getLast?_concat]
      rfl
    · rw [dictFind?_insert_other _ _ _ _ (fun hh => hp hh.symm), ih]
      rw [show List.filter (fun q => decide (q.1 = k)) [p] = [] by simp [hp]]
      rw [List.append_nil]

/-- Helper: a `mapM` in the `Except` monad whose steps all succeed is the
`map` of the successful results. -/
theorem mapM_ok {α β : Type} (f : α → Except Unit β) (g : α → β) :
    ∀ l : List α, (∀ a ∈ l, f a = Except.ok (g a)) →
      l.mapM f = Except.ok (l.map g) := by
  intro l h
  induction l with
  | nil => rfl
  | cons a l ih =>
    rw [List.mapM_cons, h a (by simp), List.map_cons,
      ih (fun b hb => h b (by simp [hb]))]
    rfl

/-- C10: in `analyze_time_overlap` the user words are stored in a dict keyed
by each word's first normalized token, a later occurrence overwriting an
earlier one with the same key; consequently every reference word is compared
against the last user occurrence whose first token matches (never an earlier,
possibly temporally closer one). Stated for all inputs whose words have
non-empty normalizations (the raising runs are claim C5's concern). -/
theorem analyzeTimeOverlap_last_occurrence
    (refs users : List Seg)
    (hu : ∀ u ∈ users, firstTok? u.word ≠ none)
    (hr : ∀ r ∈ refs, firstTok? r.word ≠ none) :
    analyzeTimeOverlap refs users =
      Except.ok (refs.map (fun r =>
        mkTimeRec r
          ((users.filter (fun u => firstTok? u.word = firstTok? r.word)).getLast?))) := by
  unfold analyzeTimeOverlap
  have hpairs : users.mapM (fun u =>
      match firstTok? u.word with
      | some k => Except.ok ((k, u) : String × Seg)
      | none => Except.error ()) =
      Except.ok (users.map (fun u => ((firstTok? u.word).getD "", u))) := by
    apply mapM_ok
    intro u huu
    obtain ⟨k, hk⟩ := Option.ne_none_iff_exists'.mp (hu u huu)
    rw [hk]
    simp [hk]
  rw [hpairs]
  show refs.mapM (fun r : Seg =>
      match firstTok? r.word with
      | some k => Except.ok (mkTimeRec r (dictFind?
          (buildUserDict (users.map (fun u : Seg => ((firstTok? u.word).getD "", u)))) k))
      | none => Except.error ()) =
    Except.ok (refs.map (fun r =>
      mkTimeRec r
        ((users.filter (fun u => firstTok? u.word = firstTok? r.word)).getLast?)))
  refine (mapM_ok _
    (fun r : Seg => mkTimeRec r (dictFind?
      (buildUserDict (users.map (fun u : Seg => ((firstTok? u.word).getD "", u))))
      ((firstTok? r.word).getD ""))) refs ?_).trans ?_
  · intro r hrr
    obtain ⟨k, hk⟩ := Option.ne_none_iff_exists'.mp (hr r hrr)
    simp [hk]
  · congr 1
    apply List.map_congr_left
    intro r hrr
    obtain ⟨k, hk⟩ := Option.ne_none_iff_exists'.mp (hr r hrr)
    congr 1
    rw [buildUserDict_find]
    rw [List.filter_map]
    rw [List.getLast?_map, Option.map_map]
    have hfilter : (users.filter
        ((fun p : String × Seg => decide (p.1 = (firstTok? r.word).getD "")) ∘
          (fun u => ((firstTok? u.word).getD "", u)))) =
        (users.filter (fun u => decide (firstTok? u.word = firstTok? r.word))) := by
      apply List.filter_congr
      intro u huu
      obtain ⟨ku, hku⟩ := Option.ne_none_iff_exists'.mp (hu u huu)
      simp [Function.comp, hku, hk]
    rw [hfilter]
    have hcomp : ((fun p : String × Seg => p.2) ∘
        (fun u => ((firstTok? u.word).getD "", u))) = id := rfl
    rw [hcomp, Option.map_id]
    rfl

/-- Witness for C10: two user occurrences share the first token "cat"; the
reference word is compared against the later one (starting at 3), although
the earlier one (starting at 0) is temporally closer to the reference. -/
theorem analyzeTimeOverlap_last_occurrence_witness :
    analyzeTimeOverlap [⟨"cat", 0, 1, 1⟩]
        [⟨"cat", 0, 1, 1/2⟩, ⟨"Cat!", 3, 4, 1/4⟩] =
      Except.ok [⟨"cat", false, 0, 0, 1, some 3, some 4⟩] := by
  have h := analyzeTimeOverlap_last_occurrence [⟨"cat", 0, 1, 1⟩]
    [⟨"cat", 0, 1, 1/2⟩, ⟨"Cat!", 3, 4, 1/4⟩]
    (by with_unfolding_all decide) (by with_unfolding_all decide)
  rw [h]
  with_unfolding_all decide

/-- C7 (amended): when the scoring lists are long enough to index (the
raising runs are claim C5's concern), the aggregated report is produced and
the stored per-word score is `round(.., 3)` of
`0.7 * (confidence if textStatus == "pass" else 0) + 0.3 * mfccValue`,
where `mfccValue` is the calibrated `adjusted_score` when present and the
raw similarity otherwise (0 with no MFCC record at all). -/
theorem generateComprehensiveResults_word_score
    (refWords : List String) (textRes : List TextResult)
    (mfccRes : List MfccRec) (timeRes : List TimeRec)
    (hlen : refWords.length ≤ textRes.length) :
    ∃ rep, generateComprehensiveResults refWords textRes mfccRes timeRes =
        Except.ok rep ∧
      ∀ i, i < refWords.length →
        (rep.wordAnalysis.get? i).map (fun w => w.wordScore) =
          (textRes.get? i).map (fun t =>
            round3 ((if t.status = "pass" then t.conf.getD 0 else 0) * (7/10) +
              (((mfccRes.get? i).map
                (fun m => m.adjusted.getD m.similarity)).getD 0) * (3/10))) := by
  have hstep : ∀ p ∈ refWords.enum,
      wordLoopStep textRes mfccRes timeRes p.1 p.2 =
        Except.ok (wordLoopValue textRes mfccRes timeRes p) := by
    intro p hp
    obtain ⟨i, w⟩ := p
    have hi : i < refWords.length := by
      have h1 := List.mk_mem_enum_iff_getElem?.mp hp
      have h2 := List.getElem?_eq_some.mp h1
      exact h2.1
    have hit : i < textRes.length := lt_of_lt_of_le hi hlen
    have ht : textRes.get? i = some (textRes.get ⟨i, hit⟩) := List.get?_eq_get hit
    unfold wordLoopStep wordLoopValue
    simp only [ht]
    rfl
  have hms := mapM_ok (fun p : ℕ × String =>
    wordLoopStep textRes mfccRes timeRes p.1 p.2)
    (wordLoopValue textRes mfccRes timeRes) refWords.enum hstep
  unfold generateComprehensiveResults
  rw [hms]
  refine ⟨_, rfl, ?_⟩
  intro i hi
  have hit : i < textRes.length := lt_of_lt_of_le hi hlen
  have ht : textRes.get? i = some (textRes.get ⟨i, hit⟩) := List.get?_eq_get hit
  have hw : refWords.get? i = some (refWords.get ⟨i, hi⟩) := List.get?_eq_get hi
  simp only [List.get?_map, List.get?_enum, hw, Option.map_some', ht]
  unfold wordLoopValue
  simp only [ht, Option.map_some', Option.getD_some]
  cases hm : mfccRes.get? i with
  | none => simp [hm]
  | some m => cases hma : m.adjusted <;> simp [hm, hma]

/-- Witness for C7 at a concrete one-word input. -/
theorem generateComprehensiveResults_word_score_witness :
    ∃ rep, generateComprehensiveResults ["cat"]
        [⟨"cat", "pass", 1, some (1/2)⟩] [⟨"cat", 1/5, some (3/10)⟩] [] =
        Except.ok rep ∧
      ∀ i, i < (["cat"] : List String).length →
        (rep.wordAnalysis.get? i).map (fun w => w.wordScore) =
          (([⟨"cat", "pass", 1, some (1/2)⟩] : List TextResult).get? i).map (fun t =>
            round3 ((if t.status = "pass" then t.conf.getD 0 else 0) * (7/10) +
              (((([⟨"cat", 1/5, some (3/10)⟩] : List MfccRec).get? i).map
                (fun m => m.adjusted.getD m.similarity)).getD 0) * (3/10))) :=
  generateComprehensiveResults_word_score ["cat"]
    [⟨"cat", "pass", 1, some (1/2)⟩] [⟨"cat", 1/5, some (3/10)⟩] []
    (by norm_num)

/-- C7 counterexample: with a passing word of confidence 0.001 and MFCC
value 0, the aggregated report stores `round(0.0007, 3) = 0.001` as the
word score, which differs from the claim's exact value
`0.7 * 0.001 + 0.3 * 0 = 0.0007`. -/
theorem generateComprehensiveResults_round_cex :
    ((generateComprehensiveResults ["cat"]
        [⟨"cat", "pass", 1, some (1/1000)⟩] [⟨"cat", 0, some 0⟩] []).toOption.map
      (fun rep => rep.wordAnalysis.map (fun w => w.wordScore))) = some [1/1000] ∧
    (1/1000 : ℚ) ≠ (1/1000) * (7/10) + (0 : ℚ) * (3/10) := by
  exact ⟨by with_unfolding_all decide, by with_unfolding_all decide⟩

/-- Helper: the mean of a list of nonnegative reals is nonnegative. -/
theorem lmean_nonneg (xs : List ℝ) (h : ∀ x ∈ xs, 0 ≤ x) : 0 ≤ lmean xs :=
  div_nonneg (List.sum_nonneg h) (Nat.cast_nonneg _)

/-- Helper: standard deviations are nonnegative. -/
theorem lstd_nonneg (xs : List ℝ) : 0 ≤ lstd xs := Real.sqrt_nonneg _

/-- Helper: `_calculate_std_deviation` returns a nonnegative value. -/
theorem calcStdDeviation_nonneg (M : List (List ℝ)) : 0 ≤ calcStdDeviation M := by
  unfold calcStdDeviation
  split
  · exact le_rfl
  · apply lmean_nonneg
    intro x hx
    obtain ⟨j, _, rfl⟩ := List.mem_map.mp hx
    exact lstd_nonneg _

/-- Helper: the standard-deviation quotient is nonnegative. -/
theorem stdQuot_nonneg (refM userM : List (List ℝ)) : 0 ≤ stdQuot refM userM := by
  unfold stdQuot
  split
  · exact div_nonneg (calcStdDeviation_nonneg _) (le_of_lt (by assumption))
  · exact le_rfl

/-- Helper: a sum of per-frame Euclidean distances is nonnegative. -/
theorem sqrtDists_sum_nonneg :
    ∀ as bs : List (List ℝ),
      0 ≤ (List.zipWith
        (fun a b => Real.sqrt ((List.zipWith (fun x y => (x - y) ^ 2) a b).sum))
        as bs).sum := by
  intro as
  induction as with
  | nil => intro bs; simp
  | cons a as ih =>
    intro bs
    cases bs with
    | nil => simp
    | cons b bs =>
      simp only [List.zipWith_cons_cons, List.sum_cons]
      exact add_nonneg (Real.sqrt_nonneg _) (ih bs)

/-- Helper: the mean frame distance of the main path is nonnegative. -/
theorem mainDists_mean_nonneg (normFn : List (List ℝ) → List (List ℝ))
    (refM userM : List (List ℝ)) :
    0 ≤ (mainDists normFn refM userM).sum /
      ((mainDists normFn refM userM).length : ℝ) := by
  apply div_nonneg _ (Nat.cast_nonneg _)
  unfold mainDists
  exact sqrtDists_sum_nonneg _ _

/-- Helper: bounds of `1 / (1 + m)` with the optional variance penalty. -/
theorem penalized_bounds (m r : ℝ) (hm : 0 ≤ m) (hr : 1/2 ≤ r) :
    0 < (if r < 1 then (1 / (1 + m)) * (1 - (1 - r) * (3/10)) else 1 / (1 + m)) ∧
    (if r < 1 then (1 / (1 + m)) * (1 - (1 - r) * (3/10)) else 1 / (1 + m)) ≤ 1 := by
  have h1 : (0:ℝ) < 1 + m := by linarith
  have hsim1 : 0 < 1 / (1 + m) := by positivity
  have hsim2 : 1 / (1 + m) ≤ 1 := by
    rw [div_le_one h1]
    linarith
  split_ifs with hlt
  · have hmult1 : (0:ℝ) < 1 - (1 - r) * (3/10) := by nlinarith
    have hmult2 : 1 - (1 - r) * (3/10) ≤ 1 := by nlinarith
    exact ⟨mul_pos hsim1 hmult1,
      le_trans (mul_le_mul hsim2 hmult2 (le_of_lt hmult1) zero_le_one) (by norm_num)⟩
  · exact ⟨hsim1, hsim2⟩

/-- Helper: the main-path value lies in (0, 1] whenever the
standard-deviation quotient reached at least 0.5. -/
theorem mainPathValue_bounds (normFn : List (List ℝ) → List (List ℝ))
    (refM userM : List (List ℝ)) (hr : 1/2 ≤ stdQuot refM userM) :
    0 < mainPathValue normFn refM userM ∧ mainPathValue normFn refM userM ≤ 1 := by
  have h := penalized_bounds
    ((mainDists normFn refM userM).sum / ((mainDists normFn refM userM).length : ℝ))
    (stdQuot refM userM) (mainDists_mean_nonneg normFn refM userM) hr
  exact h

/-- Helper: on the main path (both inputs long enough, no omission
short-circuit) the similarity is the main-path value. -/
theorem fwesWith_main (normFn : List (List ℝ) → List (List ℝ))
    (refM userM : List (List ℝ)) (h5r : 5 ≤ refM.length)
    (h5u : 5 ≤ userM.length) (hge : ¬ stdQuot refM userM < 1/2) :
    fwesWith normFn refM userM = mainPathValue normFn refM userM := by
  unfold fwesWith
  rw [if_neg (by omega), if_neg (by omega), if_neg hge]

/-- C2: `compareSegments` returns exactly 0 when either input has 0 or
fewer than 5 frames; when the standard-deviation quotient is below 0.5 it
returns exactly `0.05 * (1 - (1 - stdRatio/0.5))`, a value in [0, 0.05];
otherwise it returns a value in (0, 1]. Stated for inputs of the pipeline's
feature-matrix widths (13 or 39 columns), on which the source raises no
exception. -/
theorem frameWiseEuclideanSimilarity_range (refM userM : List (List ℝ))
    (hrw : UniformW refM 13 ∨ UniformW refM 39)
    (huw : UniformW userM 13 ∨ UniformW userM 39) :
    ((refM.length < 5 ∨ userM.length < 5) →
      frameWiseEuclideanSimilarity refM userM = 0) ∧
    (5 ≤ refM.length → 5 ≤ userM.length → stdQuot refM userM < 1/2 →
      frameWiseEuclideanSimilarity refM userM =
        (1/20) * (1 - (1 - stdQuot refM userM / (1/2))) ∧
      0 ≤ frameWiseEuclideanSimilarity refM userM ∧
      frameWiseEuclideanSimilarity refM userM ≤ 1/20) ∧
    (5 ≤ refM.length → 5 ≤ userM.length → 1/2 ≤ stdQuot refM userM →
      0 < frameWiseEuclideanSimilarity refM userM ∧
      frameWiseEuclideanSimilarity refM userM ≤ 1) := by
  refine ⟨?_, ?_, ?_⟩
  · intro h
    unfold frameWiseEuclideanSimilarity fwesWith
    by_cases h0 : refM.length = 0 ∨ userM.length = 0
    · rw [if_pos h0]
    · rw [if_neg h0, if_pos h]
  · intro h5r h5u hq
    have hmain : frameWiseEuclideanSimilarity refM userM =
        (1/20) * (1 - (1 - stdQuot refM userM / (1/2))) := by
      unfold frameWiseEuclideanSimilarity fwesWith
      rw [if_neg (by omega), if_neg (by omega), if_pos hq]
    have hr0 := stdQuot_nonneg refM userM
    refine ⟨hmain, ?_, ?_⟩
    · rw [hmain]; nlinarith
    · rw [hmain]; nlinarith
  · intro h5r h5u hge
    rw [show frameWiseEuclideanSimilarity refM userM =
        mainPathValue applyCmvn refM userM from
      fwesWith_main applyCmvn refM userM h5r h5u (not_lt.mpr hge)]
    exact mainPathValue_bounds applyCmvn refM userM hge

/-- Witness for C2: a one-frame 13-column input takes the minimum-length
guard and scores exactly 0. -/
theorem frameWiseEuclideanSimilarity_range_witness :
    frameWiseEuclideanSimilarity [List.replicate 13 (0:ℝ)]
      [List.replicate 13 (0:ℝ)] = 0 :=
  (frameWiseEuclideanSimilarity_range [List.replicate 13 (0:ℝ)]
    [List.replicate 13 (0:ℝ)]
    (Or.inl (by intro r hr; simp only [List.mem_singleton] at hr; simp [hr]))
    (Or.inl (by intro r hr; simp only [List.mem_singleton] at hr; simp [hr]))).1
    (Or.inl (by norm_num))

/-- Helper: indexing a replicated zero list. -/
theorem getD_replicate_zero (n i : ℕ) : (List.replicate n (0:ℝ)).getD i 0 = 0 := by
  induction n generalizing i with
  | zero => simp
  | succ n ih =>
    cases i with
    | zero => simp [List.replicate]
    | succ i => simpa [List.replicate] using ih i

/-- Helper: every entry of the zero frame is 0. -/
theorem getD_zrow (j : ℕ) : zrow.getD j 0 = 0 := by
  unfold zrow
  exact getD_replicate_zero 39 j

/-- Helper: entries of the last reference frame beyond column 1 are 0. -/
theorem getD_rrow_ge2 (j : ℕ) (h : 2 ≤ j) : rrow.getD j 0 = 0 := by
  obtain ⟨j', rfl⟩ : ∃ j', j = j' + 2 := ⟨j - 2, by omega⟩
  show (5 :: 5 :: List.replicate 37 (0:ℝ)).getD (j' + 2) 0 = 0
  rw [show j' + 2 = (j' + 1) + 1 from rfl, List.getD_cons_succ, List.getD_cons_succ]
  exact getD_replicate_zero 37 j'

/-- Helper: entries of the last user frame beyond column 1 are 0. -/
theorem getD_urow_ge2 (j : ℕ) (h : 2 ≤ j) : urow.getD j 0 = 0 := by
  obtain ⟨j', rfl⟩ : ∃ j', j = j' + 2 := ⟨j - 2, by omega⟩
  show (10 :: 5 :: List.replicate 37 (0:ℝ)).getD (j' + 2) 0 = 0
  rw [show j' + 2 = (j' + 1) + 1 from rfl, List.getD_cons_succ, List.getD_cons_succ]
  exact getD_replicate_zero 37 j'

/-- Helper: the last reference and user frames agree outside column 0. -/
theorem getD_rrow_urow (j : ℕ) (h : 1 ≤ j) : rrow.getD j 0 = urow.getD j 0 := by
  by_cases h1 : j = 1
  · subst h1; rfl
  · rw [getD_rrow_ge2 j (by omega), getD_urow_ge2 j (by omega)]

/-- Helper: the counterexample matrices have 39 columns. -/
theorem widthOf_refMat : widthOf refMat = 39 := by
  simp [widthOf, refMat, zrow]

/-- Helper: the counterexample user matrix has 39 columns. -/
theorem widthOf_userMat : widthOf userMat = 39 := by
  simp [widthOf, userMat, zrow]

/-- Helper: column 0 of the reference matrix. -/
theorem column_refMat_0 : column refMat 0 = [0, 0, 0, 0, 5] := by
  simp only [column, refMat, List.map_cons, List.map_nil]
  rw [getD_zrow 0]
  rfl

/-- Helper: column 1 of the reference matrix. -/
theorem column_refMat_1 : column refMat 1 = [0, 0, 0, 0, 5] := by
  simp only [column, refMat, List.map_cons, List.map_nil]
  rw [getD_zrow 1]
  rfl

/-- Helper: higher columns of the reference matrix are zero. -/
theorem column_refMat_ge2 (j : ℕ) (h : 2 ≤ j) :
    column refMat j = [0, 0, 0, 0, 0] := by
  simp only [column, refMat, List.map_cons, List.map_nil]
  rw [getD_zrow j, getD_rrow_ge2 j h]

/-- Helper: column 0 of the user matrix. -/
theorem column_userMat_0 : column userMat 0 = [0, 0, 0, 0, 10] := by
  simp only [column, userMat, List.map_cons, List.map_nil]
  rw [getD_zrow 0]
  rfl

/-- Helper: column 1 of the user matrix. -/
theorem column_userMat_1 : column userMat 1 = [0, 0, 0, 0, 5] := by
  simp only [column, userMat, List.map_cons, List.map_nil]
  rw [getD_zrow 1]
  rfl

/-- Helper: higher columns of the user matrix are zero. -/
theorem column_userMat_ge2 (j : ℕ) (h : 2 ≤ j) :
    column userMat j = [0, 0, 0, 0, 0] := by
  simp only [column, userMat, List.map_cons, List.map_nil]
  rw [getD_zrow j, getD_urow_ge2 j h]

/-- Helper: outside column 0 the two matrices have equal columns. -/
theorem column_userMat_eq_refMat (j : ℕ) (h : 1 ≤ j) :
    column userMat j = column refMat j := by
  by_cases h1 : j = 1
  · subst h1; rw [column_userMat_1, column_refMat_1]
  · rw [column_userMat_ge2 j (by omega), column_refMat_ge2 j (by omega)]

/-- Helper: mean of column `[0,0,0,0,5]`. -/
theorem lmean_00005 : lmean [0, 0, 0, 0, (5:ℝ)] = 1 := by
  norm_num [lmean]

/-- Helper: mean of column `[0,0,0,0,10]`. -/
theorem lmean_000010 : lmean [0, 0, 0, 0, (10:ℝ)] = 2 := by
  norm_num [lmean]

/-- Helper: mean of the zero column. -/
theorem lmean_zero5 : lmean [0, 0, 0, 0, (0:ℝ)] = 0 := by
  norm_num [lmean]

/-- Helper: standard deviation of column `[0,0,0,0,5]`. -/
theorem lstd_00005 : lstd [0, 0, 0, 0, (5:ℝ)] = 2 := by
  unfold lstd
  rw [lmean_00005]
  rw [show lmean ([0, 0, 0, 0, (5:ℝ)].map (fun x => (x - 1) ^ 2)) = 4 by
    norm_num [lmean]]
  rw [show (4:ℝ) = 2 ^ 2 by norm_num, Real.sqrt_sq (by norm_num)]

/-- Helper: standard deviation of column `[0,0,0,0,10]`. -/
theorem lstd_000010 : lstd [0, 0, 0, 0, (10:ℝ)] = 4 := by
  unfold lstd
  rw [lmean_000010]
  rw [show lmean ([0, 0, 0, 0, (10:ℝ)].map (fun x => (x - 2) ^ 2)) = 16 by
    norm_num [lmean]]
  rw [show (16:ℝ) = 4 ^ 2 by norm_num, Real.sqrt_sq (by norm_num)]

/-- Helper: standard deviation of the zero column. -/
theorem lstd_zero5 : lstd [0, 0, 0, 0, (0:ℝ)] = 0 := by
  unfold lstd
  rw [lmean_zero5]
  rw [show lmean ([0, 0, 0, 0, (0:ℝ)].map (fun x => (x - 0) ^ 2)) = 0 by
    norm_num [lmean]]
  exact Real.sqrt_zero

/-- Helper: standard deviation of the reference matrix. -/
theorem calcStd_refMat : calcStdDeviation refMat = 4/13 := by
  unfold calcStdDeviation
  rw [if_neg (by norm_num [refMat]), widthOf_refMat]
  show lmean ((List.range 13).map (fun j => lstd (column refMat j))) = 4/13
  rw [show List.range 13 = [0, 1, 2, 3, 4, 5, 6, 7, 8, 9, 10, 11, 12] from rfl]
  simp only [List.map_cons, List.map_nil]
  rw [column_refMat_0, column_refMat_1,
    column_refMat_ge2 2 (by norm_num), column_refMat_ge2 3 (by norm_num),
    column_refMat_ge2 4 (by norm_num), column_refMat_ge2 5 (by norm_num),
    column_refMat_ge2 6 (by norm_num), column_refMat_ge2 7 (by norm_num),
    column_refMat_ge2 8 (by norm_num), column_refMat_ge2 9 (by norm_num),
    column_refMat_ge2 10 (by norm_num), column_refMat_ge2 11 (by norm_num),
    column_refMat_ge2 12 (by norm_num)]
  rw [lstd_00005, lstd_zero5]
  norm_num [lmean]

/-- Helper: standard deviation of the user matrix. -/
theorem calcStd_userMat : calcStdDeviation userMat = 6/13 := by
  unfold calcStdDeviation
  rw [if_neg (by norm_num [userMat]), widthOf_userMat]
  show lmean ((List.range 13).map (fun j => lstd (column userMat j))) = 6/13
  rw [show List.range 13 = [0, 1, 2, 3, 4, 5, 6, 7, 8, 9, 10, 11, 12] from rfl]
  simp only [List.map_cons, List.map_nil]
  rw [column_userMat_0, column_userMat_1,
    column_userMat_ge2 2 (by norm_num), column_userMat_ge2 3 (by norm_num),
    column_userMat_ge2 4 (by norm_num), column_userMat_ge2 5 (by norm_num),
    column_userMat_ge2 6 (by norm_num), column_userMat_ge2 7 (by norm_num),
    column_userMat_ge2 8 (by norm_num), column_userMat_ge2 9 (by norm_num),
    column_userMat_ge2 10 (by norm_num), column_userMat_ge2 11 (by norm_num),
    column_userMat_ge2 12 (by norm_num)]
  rw [lstd_000010, lstd_00005, lstd_zero5]
  norm_num [lmean]

/-- Helper: the standard-deviation quotient of the counterexample pair. -/
theorem stdQuot_eval : stdQuot refMat userMat = 3/2 := by
  unfold stdQuot
  rw [calcStd_refMat, calcStd_userMat, if_pos (by norm_num)]
  norm_num

/-- Helper: the conditional augmentation is the identity on the 39-column
counterexample matrices. -/
theorem augmented_refMat : augmented refMat = refMat := by
  unfold augmented
  rw [widthOf_refMat]
  norm_num

/-- Helper: the conditional augmentation is the identity on the user
matrix. -/
theorem augmented_userMat : augmented userMat = userMat := by
  unfold augmented
  rw [widthOf_userMat]
  norm_num

/-- Helper: `_apply_cmvn` on the reference matrix, as a per-entry map. -/
theorem applyCmvn_refMat : applyCmvn refMat =
    refMat.map (fun r => (List.range 39).map (fun j =>
      (r.getD j 0 - lmean (column refMat j)) / (lstd (column refMat j) + epsStd))) := by
  unfold applyCmvn
  rw [if_neg (by norm_num [refMat]), widthOf_refMat]

/-- Helper: `_apply_cmvn` on the user matrix, as a per-entry map. -/
theorem applyCmvn_userMat : applyCmvn userMat =
    userMat.map (fun r => (List.range 39).map (fun j =>
      (r.getD j 0 - lmean (column userMat j)) / (lstd (column userMat j) + epsStd))) := by
  unfold applyCmvn
  rw [if_neg (by norm_num [userMat]), widthOf_userMat]

/-- Helper: the weighted squared distance between two 39-entry rows that
agree on every column from 1 on reduces to the energy-column term. -/
theorem wsum_row (f g : ℕ → ℝ) (h : ∀ j, 1 ≤ j → j ≤ 38 → f j = g j) :
    (List.zipWith (fun x y => (x - y) ^ 2)
      (List.zipWith (fun x y => x * y) ((List.range 39).map f) (dimensionWeights 13))
      (List.zipWith (fun x y => x * y) ((List.range 39).map g) (dimensionWeights 13))).sum
    = (3/2 * f 0 - 3/2 * g 0) ^ 2 := by
  rw [show List.range 39 = [0, 1, 2, 3, 4, 5, 6, 7, 8, 9, 10, 11, 12, 13, 14, 15,
    16, 17, 18, 19, 20, 21, 22, 23, 24, 25, 26, 27, 28, 29, 30, 31, 32, 33, 34,
    35, 36, 37, 38] from rfl]
  rw [show dimensionWeights 13 = [3/2, 3/2, 3/2, 3/2, 3/2, 3/2, 3/2, 3/2, 3/2,
    3/2, 3/2, 3/2, 3/2, 4/5, 4/5, 4/5, 4/5, 4/5, 4/5, 4/5, 4/5, 4/5, 4/5, 4/5,
    4/5, 4/5, 3/10, 3/10, 3/10, 3/10, 3/10, 3/10, 3/10, 3/10, 3/10, 3/10, 3/10,
    3/10, 3/10] from rfl]
  simp only [List.map_cons, List.map_nil, List.zipWith_cons_cons,
    List.zipWith_nil_left, List.sum_cons, List.sum_nil]
  rw [h 1 (by norm_num) (by norm_num)]
  rw [h 2 (by norm_num) (by norm_num)]
  rw [h 3 (by norm_num) (by norm_num)]
  rw [h 4 (by norm_num) (by norm_num)]
  rw [h 5 (by norm_num) (by norm_num)]
  rw [h 6 (by norm_num) (by norm_num)]
  rw [h 7 (by norm_num) (by norm_num)]
  rw [h 8 (by norm_num) (by norm_num)]
  rw [h 9 (by norm_num) (by norm_num)]
  rw [h 10 (by norm_num) (by norm_num)]
  rw [h 11 (by norm_num) (by norm_num)]
  rw [h 12 (by norm_num) (by norm_num)]
  rw [h 13 (by norm_num) (by norm_num)]
  rw [h 14 (by norm_num) (by norm_num)]
  rw [h 15 (by norm_num) (by norm_num)]
  rw [h 16 (by norm_num) (by norm_num)]
  rw [h 17 (by norm_num) (by norm_num)]
  rw [h 18 (by norm_num) (by norm_num)]
  rw [h 19 (by norm_num) (by norm_num)]
  rw [h 20 (by norm_num) (by norm_num)]
  rw [h 21 (by norm_num) (by norm_num)]
  rw [h 22 (by norm_num) (by norm_num)]
  rw [h 23 (by norm_num) (by norm_num)]
  rw [h 24 (by norm_num) (by norm_num)]
  rw [h 25 (by norm_num) (by norm_num)]
  rw [h 26 (by norm_num) (by norm_num)]
  rw [h 27 (by norm_num) (by norm_num)]
  rw [h 28 (by norm_num) (by norm_num)]
  rw [h 29 (by norm_num) (by norm_num)]
  rw [h 30 (by norm_num) (by norm_num)]
  rw [h 31 (by norm_num) (by norm_num)]
  rw [h 32 (by norm_num) (by norm_num)]
  rw [h 33 (by norm_num) (by norm_num)]
  rw [h 34 (by norm_num) (by norm_num)]
  rw [h 35 (by norm_num) (by norm_num)]
  rw [h 36 (by norm_num) (by norm_num)]
  rw [h 37 (by norm_num) (by norm_num)]
  rw [h 38 (by norm_num) (by norm_num)]
  ring

/-- Helper: energy entry of the last reference frame. -/
theorem getD_rrow_0 : rrow.getD 0 0 = 5 := rfl

/-- Helper: energy entry of the last user frame. -/
theorem getD_urow_0 : urow.getD 0 0 = 10 := rfl

/-- Helper: `_apply_cmvn` on the reference matrix, rows spelled out. -/
theorem applyCmvn_refMat_rows : applyCmvn refMat =
    [zrow, zrow, zrow, zrow, rrow].map (fun r => (List.range 39).map (fun j =>
      (r.getD j 0 - lmean (column refMat j)) / (lstd (column refMat j) + epsStd))) := by
  unfold applyCmvn
  rw [if_neg (by norm_num [refMat]), widthOf_refMat]
  rfl

/-- Helper: `_apply_cmvn` on the user matrix, rows spelled out. -/
theorem applyCmvn_userMat_rows : applyCmvn userMat =
    [zrow, zrow, zrow, zrow, urow].map (fun r => (List.range 39).map (fun j =>
      (r.getD j 0 - lmean (column userMat j)) / (lstd (column userMat j) + epsStd))) := by
  unfold applyCmvn
  rw [if_neg (by norm_num [userMat]), widthOf_userMat]
  rfl

/-- Helper: the code-side per-frame distances of the counterexample pair.
Only the energy column contributes: all other columns of the two CMVN
normalizations agree, so each frame's distance is the weighted energy
difference alone. -/
theorem mainDists_applyCmvn_eval : mainDists applyCmvn refMat userMat =
    [Real.sqrt ((3/2 * (-1/(2 + epsStd)) - 3/2 * (-2/(4 + epsStd)))^2),
     Real.sqrt ((3/2 * (-1/(2 + epsStd)) - 3/2 * (-2/(4 + epsStd)))^2),
     Real.sqrt ((3/2 * (-1/(2 + epsStd)) - 3/2 * (-2/(4 + epsStd)))^2),
     Real.sqrt ((3/2 * (-1/(2 + epsStd)) - 3/2 * (-2/(4 + epsStd)))^2),
     Real.sqrt ((3/2 * (4/(2 + epsStd)) - 3/2 * (8/(4 + epsStd)))^2)] := by
  unfold mainDists
  rw [augmented_refMat, augmented_userMat, applyCmvn_refMat_rows, applyCmvn_userMat_rows]
  simp only [List.map_cons, List.map_nil, List.length_map,
    List.length_cons, List.length_nil, padReferenceMfcc, le_refl, if_true,
    widthOf, List.headD_cons, List.length_range,
    List.zipWith_cons_cons, List.zipWith_nil_left]
  norm_num only
  have h1 : ∀ j : ℕ, 1 ≤ j → j ≤ 38 →
      (zrow.getD j 0 - lmean (column refMat j)) / (lstd (column refMat j) + epsStd) =
      (zrow.getD j 0 - lmean (column userMat j)) / (lstd (column userMat j) + epsStd) := by
    intro j hj _
    rw [column_userMat_eq_refMat j hj]
  have h5 : ∀ j : ℕ, 1 ≤ j → j ≤ 38 →
      (rrow.getD j 0 - lmean (column refMat j)) / (lstd (column refMat j) + epsStd) =
      (urow.getD j 0 - lmean (column userMat j)) / (lstd (column userMat j) + epsStd) := by
    intro j hj _
    rw [column_userMat_eq_refMat j hj, getD_rrow_urow j hj]
  rw [wsum_row _ _ h1, wsum_row _ _ h5]
  rw [getD_zrow 0, getD_rrow_0, getD_urow_0, column_refMat_0, column_userMat_0,
    lmean_00005, lmean_000010, lstd_00005, lstd_000010]
  norm_num

/-- Helper: the sorted energy column of the reference matrix. -/
theorem sortAsc_ref : sortAsc [0, 0, 0, 0, (5:ℝ)] = [0, 0, 0, 0, 5] := by
  norm_num [sortAsc, List.insertionSort, List.orderedInsert]

/-- Helper: the sorted energy column of the user matrix. -/
theorem sortAsc_user : sortAsc [0, 0, 0, 0, (10:ℝ)] = [0, 0, 0, 0, 10] := by
  norm_num [sortAsc, List.insertionSort, List.orderedInsert]

/-- Helper: 5th percentile of the reference energy column. -/
theorem percentileQ_ref_5 : percentileQ [0, 0, 0, 0, (5:ℝ)] 5 = 0 := by
  unfold percentileQ
  rw [sortAsc_ref]
  norm_num [List.getD_cons_zero, List.getD_cons_succ,
    show Int.toNat 3 = 3 from rfl, show Int.toNat 0 = 0 from rfl]

/-- Helper: 95th percentile of the reference energy column. -/
theorem percentileQ_ref_95 : percentileQ [0, 0, 0, 0, (5:ℝ)] 95 = 4 := by
  unfold percentileQ
  rw [sortAsc_ref]
  norm_num [List.getD_cons_zero, List.getD_cons_succ,
    show Int.toNat 3 = 3 from rfl, show Int.toNat 0 = 0 from rfl]

/-- Helper: 5th percentile of the user energy column. -/
theorem percentileQ_user_5 : percentileQ [0, 0, 0, 0, (10:ℝ)] 5 = 0 := by
  unfold percentileQ
  rw [sortAsc_user]
  norm_num [List.getD_cons_zero, List.getD_cons_succ,
    show Int.toNat 3 = 3 from rfl, show Int.toNat 0 = 0 from rfl]

/-- Helper: 95th percentile of the user energy column. -/
theorem percentileQ_user_95 : percentileQ [0, 0, 0, 0, (10:ℝ)] 95 = 8 := by
  unfold percentileQ
  rw [sortAsc_user]
  norm_num [List.getD_cons_zero, List.getD_cons_succ,
    show Int.toNat 3 = 3 from rfl, show Int.toNat 0 = 0 from rfl]

/-- Helper: the clip scheme on the reference matrix: the energy column
rescales to `[0,0,0,0,1]`, the remaining columns get CMVN. -/
theorem cmvnClip_refMat : cmvnWithC0Clipping refMat =
    List.zipWith (fun c0v r => c0v :: (List.range 38).map (fun j0 =>
      (r.getD (j0 + 1) 0 - lmean (column refMat (j0 + 1))) /
        (lstd (column refMat (j0 + 1)) + epsStd)))
      [0, 0, 0, 0, 1] refMat := by
  unfold cmvnWithC0Clipping
  rw [if_neg (by norm_num [refMat])]
  rw [column_refMat_0, widthOf_refMat]
  simp only []
  rw [percentileQ_ref_5, percentileQ_ref_95]
  rw [if_neg (by norm_num [epsClip])]
  norm_num

/-- Helper: the clip scheme on the user matrix: the energy column also
rescales to `[0,0,0,0,1]`. -/
theorem cmvnClip_userMat : cmvnWithC0Clipping userMat =
    List.zipWith (fun c0v r => c0v :: (List.range 38).map (fun j0 =>
      (r.getD (j0 + 1) 0 - lmean (column userMat (j0 + 1))) /
        (lstd (column userMat (j0 + 1)) + epsStd)))
      [0, 0, 0, 0, 1] userMat := by
  unfold cmvnWithC0Clipping
  rw [if_neg (by norm_num [userMat])]
  rw [column_userMat_0, widthOf_userMat]
  simp only []
  rw [percentileQ_user_5, percentileQ_user_95]
  rw [if_neg (by norm_num [epsClip])]
  norm_num

/-- Helper: under the clip scheme the two counterexample matrices normalize
to the same matrix. -/
theorem cmvnClip_ref_eq_user :
    cmvnWithC0Clipping refMat = cmvnWithC0Clipping userMat := by
  rw [cmvnClip_refMat, cmvnClip_userMat]
  have key : ∀ r u : List ℝ, (∀ j, 1 ≤ j → r.getD j 0 = u.getD j 0) →
      (List.range 38).map (fun j0 =>
        (r.getD (j0 + 1) 0 - lmean (column refMat (j0 + 1))) /
          (lstd (column refMat (j0 + 1)) + epsStd)) =
      (List.range 38).map (fun j0 =>
        (u.getD (j0 + 1) 0 - lmean (column userMat (j0 + 1))) /
          (lstd (column userMat (j0 + 1)) + epsStd)) := by
    intro r u h
    apply List.map_congr_left
    intro j0 _
    rw [h (j0 + 1) (by omega), column_userMat_eq_refMat (j0 + 1) (by omega)]
  show List.zipWith _ [0, 0, 0, 0, 1] [zrow, zrow, zrow, zrow, rrow] =
    List.zipWith _ [0, 0, 0, 0, 1] [zrow, zrow, zrow, zrow, urow]
  simp only [List.zipWith_cons_cons, List.zipWith_nil_left, List.cons.injEq,
    true_and, and_true]
  exact ⟨key zrow zrow (fun _ _ => rfl), key zrow zrow (fun _ _ => rfl),
    key zrow zrow (fun _ _ => rfl), key zrow zrow (fun _ _ => rfl),
    key rrow urow (fun j hj => getD_rrow_urow j hj)⟩

/-- Helper: the squared-difference sum of a row with itself is 0. -/
theorem zip_self_sq_sum (a : List ℝ) :
    (List.zipWith (fun x y => (x - y) ^ 2) a a).sum = 0 := by
  induction a with
  | nil => rfl
  | cons x a ih => simp [ih]

/-- Helper: the frame distances of a matrix against itself are all 0. -/
theorem zip_self_dist_sum (W : List (List ℝ)) :
    (List.zipWith
      (fun a b => Real.sqrt ((List.zipWith (fun x y => (x - y) ^ 2) a b).sum))
      W W).sum = 0 := by
  induction W with
  | nil => rfl
  | cons a W ih => simp [zip_self_sq_sum, ih]

/-- Helper: padding to the own length is the identity. -/
theorem padReferenceMfcc_self (M : List (List ℝ)) :
    padReferenceMfcc M M.length = M := by
  unfold padReferenceMfcc
  rw [if_pos le_rfl]

/-- Helper: under the clip scheme the counterexample pair has distance sum
0 (the two normalized matrices coincide). -/
theorem mainDists_clip_sum :
    (mainDists cmvnWithC0Clipping refMat userMat).sum = 0 := by
  unfold mainDists
  rw [augmented_refMat, augmented_userMat, cmvnClip_ref_eq_user]
  simp only []
  rw [padReferenceMfcc_self]
  exact zip_self_dist_sum _

/-- Helper: indexing a map over a range. -/
theorem getD_map_range (g : ℕ → ℝ) (w j : ℕ) (h : j < w) :
    ((List.range w).map g).getD j 0 = g j := by
  show (((List.range w).map g).get? j).getD 0 = g j
  rw [List.get?_map, List.get?_range h]
  rfl

/-- Helper: sum of an affinely transformed list. -/
theorem sum_map_shift_scale (l : List ℝ) (m s : ℝ) :
    (l.map (fun x => (x - m) / s)).sum = (l.sum - l.length * m) / s := by
  induction l with
  | nil => simp
  | cons a l ih =>
    rw [List.map_cons, List.sum_cons, ih, div_add_div_same]
    congr 1
    simp only [List.length_cons, List.sum_cons]
    push_cast
    ring

/-- Helper: every column of `_apply_cmvn`'s output has exactly zero mean —
including the energy column 0, which the spec's clip scheme would instead
map into [0, 1] (or to the constant 0.5). -/
theorem lmean_applyCmvn_col (M : List (List ℝ)) (j : ℕ) (hM : M ≠ [])
    (hj : j < widthOf M) : lmean (column (applyCmvn M) j) = 0 := by
  have hcol : column (applyCmvn M) j =
      (column M j).map (fun x =>
        (x - lmean (column M j)) / (lstd (column M j) + epsStd)) := by
    unfold applyCmvn
    rw [if_neg (by rw [List.length_eq_zero]; exact hM)]
    show (M.map (fun r : List ℝ => (List.range (widthOf M)).map (fun j' =>
        (r.getD j' 0 - lmean (column M j')) /
          (lstd (column M j') + epsStd)))).map (fun r => r.getD j 0) =
      (M.map (fun r => r.getD j 0)).map (fun x =>
        (x - lmean (column M j)) / (lstd (column M j) + epsStd))
    rw [List.map_map, List.map_map]
    apply List.map_congr_left
    intro r _
    exact getD_map_range _ _ j hj
  rw [hcol]
  have hnz : ((column M j).length : ℝ) ≠ 0 := by
    show (((M.map (fun r => r.getD j 0)).length : ℕ) : ℝ) ≠ 0
    simp only [List.length_map]
    exact_mod_cast (by rw [ne_eq, List.length_eq_zero]; exact hM :
      M.length ≠ (0:ℕ))
  have hnum : (column M j).sum -
      ((column M j).length : ℝ) * ((column M j).sum / ((column M j).length : ℝ)) = 0 := by
    field_simp
  unfold lmean
  rw [sum_map_shift_scale, List.length_map, hnum]
  simp

/-- Helper: under the clip scheme the counterexample pair scores exactly
1 (identical normalized matrices, distance 0, ratio 3/2 so no penalty). -/
theorem fwes_clip_value : frameWiseEuclideanSimilaritySpec refMat userMat = 1 := by
  show fwesWith cmvnWithC0Clipping refMat userMat = 1
  rw [fwesWith_main cmvnWithC0Clipping refMat userMat (by norm_num [refMat])
    (by norm_num [userMat]) (by rw [stdQuot_eval]; norm_num)]
  unfold mainPathValue
  simp only []
  rw [stdQuot_eval, mainDists_clip_sum]
  rw [if_neg (by norm_num)]
  norm_num

/-- Helper: under the code's plain CMVN the counterexample pair scores
strictly below 1: the energy column normalizes differently on the two
sides, leaving a positive mean distance. -/
theorem fwes_code_lt_one : frameWiseEuclideanSimilarity refMat userMat < 1 := by
  show fwesWith applyCmvn refMat userMat < 1
  rw [fwesWith_main applyCmvn refMat userMat (by norm_num [refMat])
    (by norm_num [userMat]) (by rw [stdQuot_eval]; norm_num)]
  unfold mainPathValue
  simp only []
  rw [stdQuot_eval, mainDists_applyCmvn_eval]
  rw [if_neg (by norm_num)]
  simp only [List.sum_cons, List.sum_nil, List.length_cons, List.length_nil]
  rw [Real.sqrt_sq_eq_abs, Real.sqrt_sq_eq_abs]
  rw [abs_of_pos (show (0:ℝ) < 3/2 * (-1/(2 + epsStd)) - 3/2 * (-2/(4 + epsStd)) by
      norm_num [epsStd]),
    abs_of_neg (show 3/2 * (4/(2 + epsStd)) - 3/2 * (8/(4 + epsStd)) < 0 by
      norm_num [epsStd])]
  norm_num [epsStd]

/-- C1 counterexample: on a concrete main-path input pair (five 39-column
frames each, standard-deviation quotient 3/2), the code's similarity
differs from the similarity the claim's CMVN+clip normalization would
produce: the clip scheme maps both energy columns to [0,...,0,1] and scores
1, while the plain CMVN of the code leaves an energy mismatch and scores
below 1. -/
theorem fwes_ne_clip_scheme :
    frameWiseEuclideanSimilarity refMat userMat ≠
      frameWiseEuclideanSimilaritySpec refMat userMat := by
  rw [fwes_clip_value]
  exact ne_of_lt fwes_code_lt_one

/-- C1 (amended): on the main path (both inputs at least 5 frames,
standard-deviation quotient at least 0.5) each segment is normalized, after
any derivative augmentation, with `_apply_cmvn` — plain per-column
zero-mean/unit-variance CMVN over all columns, the energy column included,
whose columns all come out with mean exactly 0 — and not with the
CMVN+clip scheme `cmvn_with_c0_clipping` of spec section 4.3. -/
theorem fwes_main_normalization (refM userM : List (List ℝ))
    (h5r : 5 ≤ refM.length) (h5u : 5 ≤ userM.length)
    (hge : ¬ stdQuot refM userM < 1/2) :
    frameWiseEuclideanSimilarity refM userM =
      mainPathValue applyCmvn refM userM ∧
    (∀ (M : List (List ℝ)) (j : ℕ), M ≠ [] → j < widthOf M →
      lmean (column (applyCmvn M) j) = 0) :=
  ⟨fwesWith_main applyCmvn refM userM h5r h5u hge, lmean_applyCmvn_col⟩

/-- Witness for C1 at the concrete counterexample pair. -/
theorem fwes_main_normalization_witness :
    frameWiseEuclideanSimilarity refMat userMat =
      mainPathValue applyCmvn refMat userMat ∧
    (∀ (M : List (List ℝ)) (j : ℕ), M ≠ [] → j < widthOf M →
      lmean (column (applyCmvn M) j) = 0) :=
  fwes_main_normalization refMat userMat (by norm_num [refMat])
    (by norm_num [userMat]) (by rw [stdQuot_eval]; norm_num)

end YouSync
